import Mathlib

/-!
Expression-Simplifier, `ExpressionTree.cpp`.

A shallow embedding of `src/ExpressionTree.cpp`: the token classifiers
(`IsNumber`, `IsVariable`, `IsOperator`), the reverse Polish parser
(`ExpressionTree::BuildExpressionTree`), the simplifier
(`ExpressionTree::SimplifyTree`), the comparison stub
(`ExpressionTree::IsSameTree`) and the renderer (`ExpressionTree::ToString`).

Conventions of the embedding.

* A `TreeNode*` is a value of `TreeNode`; `TreeNode.nil` is `nullptr`.
* `std::string` is `String`; the characters of a token are `String.data`.
* `Stack<TreeNode*>` is a `List TreeNode` whose head is the top.
* Dereferencing `nullptr` or an indeterminate pointer, and returning the
  local `node` of `SimplifyTree` without ever assigning it, are reported as
  `SimplifyOutcome.undefined`; an exception of `std::stoi` is
  `SimplifyOutcome.threw`.
* `int` is a 32-bit two's complement integer: arithmetic is done in `Int`
  and wrapped by `wrapInt`.
* A `char` is a `Char`, classified by its code point as `<cctype>` does in
  the "C" locale; a code point above 127 is in no class, as a byte above
  127 is there.
-/

namespace ExpressionSimplifier

/-! ## Characters and the token classifiers (lines 253-294) -/

/-- The `isspace` of `<cctype>` in the "C" locale: space (32) and `\t`, `\n`,
`\v`, `\f`, `\r` (9 to 13). -/
def isspace (c : Char) : Bool := c.toNat == 32 || (9 ≤ c.toNat && c.toNat ≤ 13)

/-- The `isdigit` of `<cctype>`: `'0'..'9'` (48 to 57). -/
def isdigit (c : Char) : Bool := 48 ≤ c.toNat && c.toNat ≤ 57

/-- The `isalpha` of `<cctype>` in the "C" locale: `'A'..'Z'` (65 to 90) and
`'a'..'z'` (97 to 122). -/
def isalpha (c : Char) : Bool :=
  (65 ≤ c.toNat && c.toNat ≤ 90) || (97 ≤ c.toNat && c.toNat ≤ 122)

/-- The `isalnum` of `<cctype>` in the "C" locale: `isalpha` or `isdigit`. -/
def isalnum (c : Char) : Bool := isalpha c || isdigit c

/-- Lines 258-268: non-empty and every character is a digit. -/
def IsNumber (token : String) : Bool :=
  if token.length == 0 then false
  else token.data.all isdigit

/-- Lines 275-285: non-empty, first character a letter, every character alphanumeric. -/
def IsVariable (token : String) : Bool :=
  match token.data with
  | [] => false
  | c :: cs => if !isalpha c then false else (c :: cs).all isalnum

/-- Lines 292-294: exactly one character, which is `+`, `-` or `*`. -/
def IsOperator (token : String) : Bool :=
  match token.data with
  | [c] => c == '+' || c == '-' || c == '*'
  | _ => false

/-! ## Nodes -/

/-- The `NodeType` enumeration of `ExpressionTree.h`. -/
inductive NodeType
  | NumberOperand
  | VariableOperand
  | Operator
  deriving DecidableEq, Repr

/-- A `TreeNode*`: `nil` is `nullptr`, `node type data left right` points to a
node with these four fields. -/
inductive TreeNode
  | nil
  | node (type : NodeType) (data : String) (left right : TreeNode)
  deriving DecidableEq, Repr

namespace TreeNode

/-- The node made by `new TreeNode(type, data)`: both children are `nullptr`. -/
def new (type : NodeType) (data : String) : TreeNode := node type data nil nil

end TreeNode

open NodeType TreeNode

/-! ## Tokenising: `ss >> token` -/

/-- The tokens that successive `ss >> token` extract from a character
sequence: leading white space is skipped, then characters are taken up to
the next white space or the end; extraction fails at the end of the input.
`cur` holds, reversed, the characters of the token being read. -/
def extractTokens : List Char → List Char → List String
  | [], cur => if cur.isEmpty then [] else [String.mk cur.reverse]
  | c :: cs, cur =>
    if isspace c then
      if cur.isEmpty then extractTokens cs [] else String.mk cur.reverse :: extractTokens cs []
    else extractTokens cs (c :: cur)

/-- The token sequence read from the `stringstream` of line 52 by the loop of line 58. -/
def tokens (text : String) : List String := extractTokens text.data []

/-! ## `BuildExpressionTree` (lines 51-101) -/

/-- How the `while` loop of lines 58-91 ends. -/
inductive LoopExit
  /-- Lines 72-77: an operator with fewer than two items on the stack. -/
  | tooFewOperands
  /-- Lines 85-90: a token that is no number, variable or operator. -/
  | badToken
  /-- The tokens are used up; `branch` is the stack at line 93. -/
  | finished (branch : List TreeNode)
  deriving DecidableEq, Repr

/-- The loop of lines 58-91 over the remaining tokens, `branch` being the stack. -/
def buildLoop : List String → List TreeNode → LoopExit
  | [], branch => .finished branch
  | token :: rest, branch =>
    if IsNumber token then buildLoop rest (TreeNode.new NumberOperand token :: branch)
    else if IsVariable token then buildLoop rest (TreeNode.new VariableOperand token :: branch)
    else if IsOperator token then
      match branch with
      | r :: l :: below => buildLoop rest (node Operator token l r :: below)
      | _ => .tooFewOperands
    else .badToken

/-- The `ExpressionTree` object: its only field is `_root`. -/
structure ExpressionTree where
  _root : TreeNode
  deriving DecidableEq, Repr

/-- The default constructor (lines 29-32): the null tree. -/
def ExpressionTree.empty : ExpressionTree := ⟨nil⟩

/-- What a call of `BuildExpressionTree` leaves behind: the returned `bool`,
the object after the call and the text written to `cout`. -/
structure BuildResult where
  ret : Bool
  tree : ExpressionTree
  cout : String
  deriving DecidableEq, Repr

/-- Lines 51-101. -/
def BuildExpressionTree (self : ExpressionTree) (text : String) : BuildResult :=
  match buildLoop (tokens text) [] with
  | .tooFewOperands => ⟨false, self, "Error"⟩
  | .badToken => ⟨false, self, "Error"⟩
  | .finished [root] => ⟨true, ⟨root⟩, ""⟩
  | .finished _ => ⟨false, self, ""⟩

/-! ## `std::stoi`, `std::to_string` and `int` -/

/-- The largest `int`. -/
def INT_MAX : Int := 2147483647

/-- The smallest `int`. -/
def INT_MIN : Int := -2147483648

/-- A mathematical integer reduced to the 32-bit two's complement `int` it is stored as. -/
def wrapInt (z : Int) : Int := (z + 2147483648) % 4294967296 - 2147483648

/-- The number a run of decimal digits denotes, most significant digit first. -/
def decimalValue (digits : List Char) : Nat :=
  digits.foldl (fun acc c => 10 * acc + (c.toNat - 48)) 0

/-- The optional sign at the head of what `std::stoi` reads: whether it is
`-`, and the characters after the sign. -/
def readSign : List Char → Bool × List Char
  | '-' :: rest => (true, rest)
  | '+' :: rest => (false, rest)
  | rest => (false, rest)

/-- The `std::stoi(str)` of `<string>` (base 10): leading white space is
skipped, an optional sign is read, then the longest run of digits. The
result is `none` when an exception is thrown: `std::invalid_argument` when
there is no digit, `std::out_of_range` when the value is no `int`. -/
def stoi (str : String) : Option Int :=
  let signed := readSign (str.data.dropWhile isspace)
  let digits := signed.2.takeWhile isdigit
  if digits.isEmpty then none
  else
    let magnitude : Int := decimalValue digits
    let value : Int := if signed.1 then -magnitude else magnitude
    if INT_MIN ≤ value ∧ value ≤ INT_MAX then some value else none

/-- The `std::to_string(int)` of `<string>`: the decimal digits, after a `-` for a negative value. -/
def to_string (val : Int) : String :=
  if val < 0 then "-" ++ String.mk (Nat.toDigits 10 val.natAbs)
  else String.mk (Nat.toDigits 10 val.natAbs)

/-! ## `SimplifyTree` (lines 118-215) -/

/-- Modelled from the spec: the member `TreeNode::IsNumber()` is declared in
`ExpressionTree.h`, which is not among the sources; the node's tag decides
it ("`kind`: one of {NumberOperand, VariableOperand, Operator}"). -/
def TreeNode.IsNumber : TreeNode → Option Bool
  | nil => none
  | node type _ _ _ => some (type == NumberOperand)

/-- What a call of `SimplifyTree` does. -/
inductive SimplifyOutcome
  /-- The call returns this node. -/
  | returned (node : TreeNode)
  /-- The call has no defined result: it dereferences `nullptr` or an
  indeterminate pointer, or reaches line 214 with `node` never assigned. -/
  | undefined
  /-- The call is left by an exception of `std::stoi`. -/
  | threw
  deriving DecidableEq, Repr

/-- The guard of lines 121 and 125 on a child: `some true` when the child is
to be simplified first, `none` when the child is `nullptr`. -/
def needsSimplify : TreeNode → Option Bool
  | nil => none
  | node type data left right =>
    match (node type data left right).IsNumber with
    | some isNum => some (!isNum && !IsVariable data)
    | none => none

/-- Lines 136-147: the `int` computed from two `int` operands. -/
def foldConstants (data : String) (leftVal rightVal : Int) : Int :=
  if data == "+" then wrapInt (leftVal + rightVal)
  else if data == "*" then wrapInt (leftVal * rightVal)
  else if data == "-" then wrapInt (leftVal - rightVal)
  else 0

/-- Lines 158-210: the text computed from the two operand texts. -/
def rewriteSymbolic (data leftVar rightVar : String) : String :=
  if data == "+" then
    if leftVar == "0" then rightVar
    else if rightVar == "0" then leftVar
    else "(" ++ leftVar ++ "+" ++ rightVar ++ ")"
  else if data == "*" then
    if leftVar == "0" || rightVar == "0" then "0"
    else if leftVar == "1" then rightVar
    else if rightVar == "1" then leftVar
    else "(" ++ leftVar ++ "*" ++ rightVar ++ ")"
  else if data == "-" then
    if leftVar == rightVar then "0"
    else if leftVar == "0" then "(-" ++ rightVar ++ ")"
    else if rightVar == "0" then leftVar
    else "(" ++ leftVar ++ "-" ++ rightVar ++ ")"
  else ""

/-- Lines 130-214: the node made from the operator text `data` and the two
children the node has after lines 121-128. -/
def rewriteNode (data : String) : TreeNode → TreeNode → SimplifyOutcome
  | node leftType leftData _ _, node rightType rightData _ _ =>
    if IsNumber leftData && IsNumber rightData then
      match stoi leftData with
      | none => .threw
      | some leftVal =>
        match stoi rightData with
        | none => .threw
        | some rightVal =>
          .returned (TreeNode.new NumberOperand (to_string (foldConstants data leftVal rightVal)))
    else if leftType == VariableOperand || rightType == VariableOperand then
      .returned (TreeNode.new VariableOperand (rewriteSymbolic data leftData rightData))
    else .undefined
  | _, _ => .undefined

/-- Lines 118-215. -/
def SimplifyTree : TreeNode → SimplifyOutcome
  | nil => .undefined
  | node _ data left right =>
    let newLeft : SimplifyOutcome :=
      match needsSimplify left with
      | none => .undefined
      | some true => SimplifyTree left
      | some false => .returned left
    match newLeft with
    | .returned l =>
      let newRight : SimplifyOutcome :=
        match needsSimplify right with
        | none => .undefined
        | some true => SimplifyTree right
        | some false => .returned right
      match newRight with
      | .returned r => rewriteNode data l r
      | other => other
    | other => other

/-! ## `IsSameTree` (lines 223-226) and `ToString` (lines 234-251) -/

/-- Lines 223-226. -/
def IsSameTree (_tree1 _tree2 : TreeNode) : Bool := false

/-- Lines 234-251; `none` when `nullptr` is dereferenced. -/
def ToString : TreeNode → Bool → Option String
  | nil, _ => none
  | node type data left right, fNeedOuterParen =>
    if Operator == type then
      match ToString left true, ToString right true with
      | some l, some r =>
        some ((if fNeedOuterParen then "(" else "") ++ l ++ data ++ r ++
          (if fNeedOuterParen then ")" else ""))
      | _, _ => none
    else some data

/-! ## The vocabulary of the specification -/

/-- A null pointer. -/
def TreeNode.isNull : TreeNode → Bool
  | nil => true
  | node _ _ _ _ => false

/-- The node invariant of the data model at one node: an operator node has
two non-null children and a payload among `+ - *`; a number node has no
children and a digit-run payload; a variable node has no children and an
identifier payload. -/
def nodeInvariant : TreeNode → Bool
  | nil => false
  | node NumberOperand data left right => IsNumber data && left.isNull && right.isNull
  | node VariableOperand data left right => IsVariable data && left.isNull && right.isNull
  | node Operator data left right => IsOperator data && !left.isNull && !right.isNull

/-- The nodes of a tree, the root first. -/
def TreeNode.nodes : TreeNode → List TreeNode
  | nil => []
  | node type data left right => node type data left right :: (left.nodes ++ right.nodes)

/-- A well-formed tree: a non-null pointer to a strict binary tree whose
leaves are operands carrying a token of their kind and whose inner nodes
are operators. -/
def WellFormed : TreeNode → Bool
  | nil => false
  | node NumberOperand data left right => IsNumber data && left.isNull && right.isNull
  | node VariableOperand data left right => IsVariable data && left.isNull && right.isNull
  | node Operator data left right => IsOperator data && WellFormed left && WellFormed right

/-- The payloads of a tree in post-order: left subtree, right subtree, node. -/
def postOrder : TreeNode → List String
  | nil => []
  | node _ data left right => postOrder left ++ postOrder right ++ [data]

/-- The post-order payloads of the trees on a stack, from the bottom to the top. -/
def stackTokens : List TreeNode → List String
  | [] => []
  | top :: below => stackTokens below ++ postOrder top

/-- An operand token: a number or a variable. -/
def isOperandToken (token : String) : Bool := IsNumber token || IsVariable token

/-- The number of operand tokens in a token sequence. -/
def operandCount (toks : List String) : Nat := toks.countP isOperandToken

/-- The number of operator tokens in a token sequence. -/
def operatorCount (toks : List String) : Nat := toks.countP IsOperator

/-- The leaf `BuildExpressionTree` makes for an operand token (lines 60-69). -/
def operandLeaf (token : String) : TreeNode :=
  if IsNumber token then TreeNode.new NumberOperand token else TreeNode.new VariableOperand token

/-- The child a node holds after lines 121-124 (for the left child) or
125-128 (for the right child). -/
def simplifiedChild (child : TreeNode) : SimplifyOutcome :=
  match needsSimplify child with
  | none => .undefined
  | some true => SimplifyTree child
  | some false => .returned child

/-- The exact integer an operator symbol computes from two integers. -/
def applyOperator (op : String) (x y : Int) : Int :=
  if op = "+" then x + y else if op = "*" then x * y else x - y

/-- The exact integer value of an expression tree over numbers. -/
def exactValue : TreeNode → Int
  | nil => 0
  | node NumberOperand data _ _ => decimalValue data.data
  | node VariableOperand _ _ _ => 0
  | node Operator op left right => applyOperator op (exactValue left) (exactValue right)

/-- Whether a value fits in a 32-bit signed `int`. -/
def fitsInt (z : Int) : Bool := decide (INT_MIN ≤ z) && decide (z ≤ INT_MAX)

/-- Whether the constants and all intermediate values of a tree fit in an `int`. -/
def allFitInt : TreeNode → Bool
  | nil => true
  | node type data left right =>
    fitsInt (exactValue (node type data left right)) && allFitInt left && allFitInt right

/-- Whether the value of every node of a tree is at least 0. -/
def allNonNeg : TreeNode → Bool
  | nil => true
  | node type data left right =>
    decide (0 ≤ exactValue (node type data left right)) && allNonNeg left && allNonNeg right

/-- Whether every leaf of a tree is a number operand. -/
def numbersOnly : TreeNode → Bool
  | nil => true
  | node NumberOperand _ _ _ => true
  | node VariableOperand _ _ _ => false
  | node Operator _ left right => numbersOnly left && numbersOnly right

/-- The rule table of the specification for an operator node with at least
one variable operand: for `+`, `r` if `l` is `0`, else `l` if `r` is `0`,
else `(l+r)`; for `*`, `0` if `l` or `r` is `0`, else `r` if `l` is `1`, else
`l` if `r` is `1`, else `(l*r)`; for `-`, `0` if `l` equals `r` as text, else
`(-r)` if `l` is `0`, else `l` if `r` is `0`, else `(l-r)`. -/
def ruleTable (op l r : String) : String :=
  if op = "+" then
    if l = "0" then r
    else if r = "0" then l
    else "(" ++ l ++ "+" ++ r ++ ")"
  else if op = "*" then
    if l = "0" ∨ r = "0" then "0"
    else if l = "1" then r
    else if r = "1" then l
    else "(" ++ l ++ "*" ++ r ++ ")"
  else
    if l = r then "0"
    else if l = "0" then "(-" ++ r ++ ")"
    else if r = "0" then l
    else "(" ++ l ++ "-" ++ r ++ ")"

/-! ## The nodes a call of `BuildExpressionTree` allocates -/

/-- The loop of lines 58-91 with the heap: `made` lists the nodes allocated
by `new TreeNode` (lines 62, 67, 79) and not deleted, the latest first. No
statement of the loop deletes a node. The result is the way the loop ends,
the stack at that point and the heap at that point. -/
def buildLoopHeap :
    List String → List TreeNode → List TreeNode → LoopExit × List TreeNode × List TreeNode
  | [], branch, made => (.finished branch, branch, made)
  | token :: rest, branch, made =>
    if IsNumber token then
      buildLoopHeap rest (TreeNode.new NumberOperand token :: branch)
        (TreeNode.new NumberOperand token :: made)
    else if IsVariable token then
      buildLoopHeap rest (TreeNode.new VariableOperand token :: branch)
        (TreeNode.new VariableOperand token :: made)
    else if IsOperator token then
      match branch with
      | r :: l :: below =>
        buildLoopHeap rest (node Operator token l r :: below)
          (TreeNode.new Operator token :: made)
      | _ => (.tooFewOperands, branch, made)
    else (.badToken, branch, made)

/-- Modelled from the spec: `Stack.h` is not among the sources; its `Pop()`
hands back the top item ("pop()->item") and leaves the node it points to
alone. The loop `while(!branch.IsEmpty()){branch.Pop();}` of lines 75, 88
and 95 run on the stack `branch` with the heap `made`: each round drops a
pointer, and no `delete` is applied to it. -/
def clearStack : List TreeNode → List TreeNode → List TreeNode
  | [], made => made
  | _ :: below, made => clearStack below made

/-- Lines 51-101 with the heap: the result of the call, and the nodes the
call allocated that are still allocated and belong to no tree when it
returns. After a successful call every node made belongs to the new tree. -/
def BuildExpressionTreeHeap (self : ExpressionTree) (text : String) :
    BuildResult × List TreeNode :=
  match buildLoopHeap (tokens text) [] [] with
  | (.tooFewOperands, branch, made) => (⟨false, self, "Error"⟩, clearStack branch made)
  | (.badToken, branch, made) => (⟨false, self, "Error"⟩, clearStack branch made)
  | (.finished [root], _, _) => (⟨true, ⟨root⟩, ""⟩, [])
  | (.finished _, branch, made) => (⟨false, self, ""⟩, clearStack branch made)

/-! ## More vocabulary of the specification -/

/-- The three errors of the specification's error taxonomy. -/
inductive ParseError
  | InsufficientOperands
  | InvalidToken
  | MalformedExpression
  deriving DecidableEq, Repr

/-- The error of the taxonomy that ends a build, by the path taken through
lines 58-97; `none` for a successful build. -/
def failureCause (text : String) : Option ParseError :=
  match buildLoop (tokens text) [] with
  | .tooFewOperands => some .InsufficientOperands
  | .badToken => some .InvalidToken
  | .finished [_] => none
  | .finished _ => some .MalformedExpression

/-- The ASCII digits. -/
def asciiDigits : List Char := "0123456789".data

/-- The ASCII letters. -/
def asciiLetters : List Char := "ABCDEFGHIJKLMNOPQRSTUVWXYZabcdefghijklmnopqrstuvwxyz".data

/-- Whether a pointer points to a node tagged as an operator. -/
def TreeNode.isOperator : TreeNode → Bool
  | nil => false
  | node type _ _ _ => type == Operator

/-- The number of operator nodes of a tree other than its root. -/
def innerOperatorCount (t : TreeNode) : Nat := t.nodes.tail.countP TreeNode.isOperator

/-- Whether every leaf of a tree is a variable operand. -/
def variablesOnly : TreeNode → Bool
  | nil => true
  | node NumberOperand _ _ _ => false
  | node VariableOperand _ _ _ => true
  | node Operator _ left right => variablesOnly left && variablesOnly right

/-- Whether a tree has no `-` node whose two operands render, with the flag
true, to the same text. -/
def noSelfSubtraction : TreeNode → Bool
  | nil => true
  | node type data left right =>
    !(type == Operator && data == "-" && ToString left true == ToString right true) &&
      noSelfSubtraction left && noSelfSubtraction right

/-- The tree `exp - exp`: a `-` node over two identical copies of `exp`. -/
def selfSubtraction (exp : TreeNode) : TreeNode := node Operator "-" exp exp

/-! ## Characters and classifiers -/

theorem isspace_of_isalnum {c : Char} (h : isalnum c = true) : isspace c = false := by
  simp only [isalnum, isalpha, isdigit, Bool.or_eq_true, Bool.and_eq_true,
    decide_eq_true_eq] at h
  simp only [isspace, Bool.or_eq_false_iff, beq_eq_false_iff_ne, ne_eq,
    Bool.and_eq_false_imp, decide_eq_true_eq, decide_eq_false_iff_not]
  omega

theorem isalnum_of_isdigit {c : Char} (h : isdigit c = true) : isalnum c = true := by
  simp [isalnum, h]

theorem isalnum_of_isalpha {c : Char} (h : isalpha c = true) : isalnum c = true := by
  simp [isalnum, h]

theorem isdigit_of_isalpha {c : Char} (h : isalpha c = true) : isdigit c = false := by
  simp only [isalpha, Bool.or_eq_true, Bool.and_eq_true, decide_eq_true_eq] at h
  simp only [isdigit, Bool.and_eq_false_imp, decide_eq_true_eq, decide_eq_false_iff_not]
  omega

theorem IsNumber_iff (token : String) :
    IsNumber token = true ↔ token.data ≠ [] ∧ ∀ c ∈ token.data, isdigit c = true := by
  unfold IsNumber
  rcases token with ⟨cs⟩
  cases cs with
  | nil => simp [String.length]
  | cons c cs => simp [String.length]

theorem IsVariable_iff (token : String) :
    IsVariable token = true ↔
      ∃ c cs, token.data = c :: cs ∧ isalpha c = true ∧ ∀ d ∈ c :: cs, isalnum d = true := by
  unfold IsVariable
  rcases token with ⟨cs⟩
  cases cs with
  | nil => simp
  | cons c cs =>
    cases hc : isalpha c with
    | false => simp [hc]
    | true =>
      simp only [hc, Bool.not_true, Bool.false_eq_true, if_false]
      constructor
      · intro h
        exact ⟨c, cs, rfl, hc, by simpa using h⟩
      · rintro ⟨c1, cs1, heq, -, hall⟩
        cases heq
        simpa using hall

theorem IsOperator_iff (token : String) :
    IsOperator token = true ↔ token = "+" ∨ token = "-" ∨ token = "*" := by
  unfold IsOperator
  rcases token with ⟨cs⟩
  constructor
  · intro h
    match cs, h with
    | [c], h =>
      simp only [Bool.or_eq_true, beq_iff_eq] at h
      rcases h with (h | h) | h <;> subst h
      · exact Or.inl rfl
      · exact Or.inr (Or.inl rfl)
      · exact Or.inr (Or.inr rfl)
  · rintro (h | h | h) <;> rw [h] <;> rfl

theorem IsNumber_false_of_IsVariable {token : String} (h : IsVariable token = true) :
    IsNumber token = false := by
  obtain ⟨c, cs, hd, hc, _⟩ := (IsVariable_iff token).1 h
  cases hn : IsNumber token with
  | false => rfl
  | true =>
    have hdig := ((IsNumber_iff token).1 hn).2 c (by rw [hd]; exact List.mem_cons_self _ _)
    rw [isdigit_of_isalpha hc] at hdig
    exact absurd hdig (by decide)

theorem IsNumber_false_of_IsOperator {token : String} (h : IsOperator token = true) :
    IsNumber token = false := by
  rcases (IsOperator_iff token).1 h with h | h | h <;> subst h <;> decide

theorem IsVariable_false_of_IsOperator {token : String} (h : IsOperator token = true) :
    IsVariable token = false := by
  rcases (IsOperator_iff token).1 h with h | h | h <;> subst h <;> decide

theorem isOperandToken_false_of_IsOperator {token : String} (h : IsOperator token = true) :
    isOperandToken token = false := by
  simp [isOperandToken, IsNumber_false_of_IsOperator h, IsVariable_false_of_IsOperator h]

theorem IsOperator_false_of_isOperandToken {token : String} (h : isOperandToken token = true) :
    IsOperator token = false := by
  cases ho : IsOperator token with
  | false => rfl
  | true => rw [isOperandToken_false_of_IsOperator ho] at h; exact absurd h (by decide)

/-! ## The parsing loop -/

theorem buildLoop_number {token : String} (h : IsNumber token = true) (rest : List String)
    (branch : List TreeNode) :
    buildLoop (token :: rest) branch = buildLoop rest (TreeNode.new NumberOperand token :: branch) := by
  simp [buildLoop, h]

theorem buildLoop_variable {token : String} (h : IsVariable token = true) (rest : List String)
    (branch : List TreeNode) :
    buildLoop (token :: rest) branch =
      buildLoop rest (TreeNode.new VariableOperand token :: branch) := by
  simp [buildLoop, h, IsNumber_false_of_IsVariable h]

theorem buildLoop_operand {token : String} (h : isOperandToken token = true) (rest : List String)
    (branch : List TreeNode) :
    buildLoop (token :: rest) branch = buildLoop rest (operandLeaf token :: branch) := by
  unfold operandLeaf
  cases hn : IsNumber token with
  | true => simpa using buildLoop_number hn rest branch
  | false =>
    have hv : IsVariable token = true := by simpa [isOperandToken, hn] using h
    simpa using buildLoop_variable hv rest branch

theorem buildLoop_operator {token : String} (h : IsOperator token = true) (rest : List String)
    (r l : TreeNode) (below : List TreeNode) :
    buildLoop (token :: rest) (r :: l :: below) =
      buildLoop rest (node Operator token l r :: below) := by
  simp [buildLoop, h, IsNumber_false_of_IsOperator h, IsVariable_false_of_IsOperator h]

theorem buildLoop_operator_short {token : String} (h : IsOperator token = true)
    (rest : List String) (branch : List TreeNode) (hb : branch.length < 2) :
    buildLoop (token :: rest) branch = .tooFewOperands := by
  match branch, hb with
  | [], _ => simp [buildLoop, h, IsNumber_false_of_IsOperator h, IsVariable_false_of_IsOperator h]
  | [_], _ => simp [buildLoop, h, IsNumber_false_of_IsOperator h, IsVariable_false_of_IsOperator h]

theorem buildLoop_invalid {token : String} (h1 : isOperandToken token = false)
    (h2 : IsOperator token = false) (rest : List String) (branch : List TreeNode) :
    buildLoop (token :: rest) branch = .badToken := by
  simp only [isOperandToken, Bool.or_eq_false_iff] at h1
  simp [buildLoop, h1.1, h1.2, h2]

theorem BuildExpressionTree_of_finished (self : ExpressionTree) (text : String) (root : TreeNode)
    (h : buildLoop (tokens text) [] = .finished [root]) :
    BuildExpressionTree self text = ⟨true, ⟨root⟩, ""⟩ := by
  simp [BuildExpressionTree, h]

theorem finished_of_BuildExpressionTree (self : ExpressionTree) (text : String)
    (h : (BuildExpressionTree self text).ret = true) :
    buildLoop (tokens text) [] = .finished [(BuildExpressionTree self text).tree._root] := by
  unfold BuildExpressionTree at h ⊢
  split at h
  · simp at h
  · simp at h
  · rename_i root hroot
    simp [hroot]
  · simp at h

/-! ## Well-formed trees and the parsing loop -/

theorem isNull_iff (t : TreeNode) : t.isNull = true ↔ t = nil := by
  cases t <;> simp [TreeNode.isNull]

theorem WellFormed_number {data : String} {left right : TreeNode} :
    WellFormed (node NumberOperand data left right) = true ↔
      IsNumber data = true ∧ left = nil ∧ right = nil := by
  simp [WellFormed, isNull_iff, and_assoc]

theorem WellFormed_variable {data : String} {left right : TreeNode} :
    WellFormed (node VariableOperand data left right) = true ↔
      IsVariable data = true ∧ left = nil ∧ right = nil := by
  simp [WellFormed, isNull_iff, and_assoc]

theorem WellFormed_operator {data : String} {left right : TreeNode} :
    WellFormed (node Operator data left right) = true ↔
      IsOperator data = true ∧ WellFormed left = true ∧ WellFormed right = true := by
  simp [WellFormed, and_assoc]

theorem WellFormed_operandLeaf {token : String} (h : isOperandToken token = true) :
    WellFormed (operandLeaf token) = true := by
  unfold operandLeaf
  cases hn : IsNumber token with
  | true => simp [TreeNode.new, WellFormed_number, hn]
  | false =>
    have hv : IsVariable token = true := by simpa [isOperandToken, hn] using h
    simp [TreeNode.new, WellFormed_variable, hv]

/-- Reading the post-order payloads of a well-formed tree pushes that tree. -/
theorem buildLoop_postOrder (t : TreeNode) (ht : WellFormed t = true) :
    ∀ (rest : List String) (branch : List TreeNode),
      buildLoop (postOrder t ++ rest) branch = buildLoop rest (t :: branch) := by
  induction t with
  | nil => simp [WellFormed] at ht
  | node type data left right ihl ihr =>
    intro rest branch
    cases type with
    | NumberOperand =>
      obtain ⟨hd, hl, hr⟩ := WellFormed_number.1 ht
      subst hl hr
      simpa [postOrder, TreeNode.new] using buildLoop_number hd rest branch
    | VariableOperand =>
      obtain ⟨hd, hl, hr⟩ := WellFormed_variable.1 ht
      subst hl hr
      simpa [postOrder, TreeNode.new] using buildLoop_variable hd rest branch
    | Operator =>
      obtain ⟨hd, hl, hr⟩ := WellFormed_operator.1 ht
      have e : postOrder (node Operator data left right) ++ rest =
          postOrder left ++ (postOrder right ++ (data :: rest)) := by
        simp [postOrder]
      rw [e, ihl hl, ihr hr, buildLoop_operator hd]

/-- The stack at the end of the loop spells the stack at the start followed by the tokens read. -/
theorem stackTokens_of_finished :
    ∀ (toks : List String) (branch final : List TreeNode),
      buildLoop toks branch = .finished final → stackTokens final = stackTokens branch ++ toks := by
  intro toks
  induction toks with
  | nil =>
    intro branch final h
    simp only [buildLoop, LoopExit.finished.injEq] at h
    simp [h]
  | cons token rest ih =>
    intro branch final h
    cases hop : isOperandToken token with
    | true =>
      rw [buildLoop_operand hop] at h
      have := ih _ _ h
      rw [this]
      unfold operandLeaf
      split <;> simp [stackTokens, postOrder, TreeNode.new]
    | false =>
      cases ho : IsOperator token with
      | false => rw [buildLoop_invalid hop ho] at h; exact absurd h (by simp)
      | true =>
        match branch, h with
        | [], h => rw [buildLoop_operator_short ho _ _ (by simp)] at h; exact absurd h (by simp)
        | [_], h => rw [buildLoop_operator_short ho _ _ (by simp)] at h; exact absurd h (by simp)
        | r :: l :: below, h =>
          rw [buildLoop_operator ho] at h
          have := ih _ _ h
          rw [this]
          simp [stackTokens, postOrder]

/-- The loop keeps every tree on the stack well-formed. -/
theorem wellFormed_of_finished :
    ∀ (toks : List String) (branch final : List TreeNode),
      (∀ t ∈ branch, WellFormed t = true) → buildLoop toks branch = .finished final →
      ∀ t ∈ final, WellFormed t = true := by
  intro toks
  induction toks with
  | nil =>
    intro branch final hb h
    simp only [buildLoop, LoopExit.finished.injEq] at h
    subst h
    exact hb
  | cons token rest ih =>
    intro branch final hb h
    cases hop : isOperandToken token with
    | true =>
      rw [buildLoop_operand hop] at h
      refine ih _ _ ?_ h
      intro t ht
      rcases List.mem_cons.1 ht with ht | ht
      · rw [ht]; exact WellFormed_operandLeaf hop
      · exact hb t ht
    | false =>
      cases ho : IsOperator token with
      | false => rw [buildLoop_invalid hop ho] at h; exact absurd h (by simp)
      | true =>
        match branch, hb, h with
        | [], _, h => rw [buildLoop_operator_short ho _ _ (by simp)] at h; exact absurd h (by simp)
        | [_], _, h => rw [buildLoop_operator_short ho _ _ (by simp)] at h; exact absurd h (by simp)
        | r :: l :: below, hb, h =>
          rw [buildLoop_operator ho] at h
          refine ih _ _ ?_ h
          intro t ht
          rcases List.mem_cons.1 ht with ht | ht
          · rw [ht]
            exact WellFormed_operator.2 ⟨ho, hb l (by simp), hb r (by simp)⟩
          · exact hb t (by simp [ht])

/-- In a well-formed tree every node satisfies the node invariant. -/
theorem nodeInvariant_of_WellFormed :
    ∀ t : TreeNode, WellFormed t = true → ∀ n ∈ t.nodes, nodeInvariant n = true := by
  intro t
  induction t with
  | nil => intro h; simp [WellFormed] at h
  | node type data left right ihl ihr =>
    intro h n hn
    cases type with
    | NumberOperand =>
      obtain ⟨hd, hl, hr⟩ := WellFormed_number.1 h
      subst hl hr
      simp only [TreeNode.nodes, List.append_nil, List.mem_singleton] at hn
      subst hn
      simp [nodeInvariant, hd, TreeNode.isNull]
    | VariableOperand =>
      obtain ⟨hd, hl, hr⟩ := WellFormed_variable.1 h
      subst hl hr
      simp only [TreeNode.nodes, List.append_nil, List.mem_singleton] at hn
      subst hn
      simp [nodeInvariant, hd, TreeNode.isNull]
    | Operator =>
      obtain ⟨hd, hl, hr⟩ := WellFormed_operator.1 h
      simp only [TreeNode.nodes, List.mem_cons, List.mem_append] at hn
      rcases hn with hn | hn | hn
      · subst hn
        have nl : left.isNull = false := by
          cases left with
          | nil => simp [WellFormed] at hl
          | node _ _ _ _ => rfl
        have nr : right.isNull = false := by
          cases right with
          | nil => simp [WellFormed] at hr
          | node _ _ _ _ => rfl
        simp [nodeInvariant, hd, nl, nr]
      · exact ihl hl n hn
      · exact ihr hr n hn

/-! ## Counting operands and operators -/

theorem counts_cons_operand {token : String} (h : isOperandToken token = true)
    (toks : List String) :
    operandCount (token :: toks) = operandCount toks + 1 ∧
      operatorCount (token :: toks) = operatorCount toks := by
  simp [operandCount, operatorCount, List.countP_cons, h, IsOperator_false_of_isOperandToken h]

theorem counts_cons_operator {token : String} (h : IsOperator token = true)
    (toks : List String) :
    operandCount (token :: toks) = operandCount toks ∧
      operatorCount (token :: toks) = operatorCount toks + 1 := by
  simp [operandCount, operatorCount, List.countP_cons, h, isOperandToken_false_of_IsOperator h]

/-- The height of the final stack: one up for an operand, one down for an operator. -/
theorem length_of_finished :
    ∀ (toks : List String) (branch final : List TreeNode),
      buildLoop toks branch = .finished final →
      (final.length : Int) = branch.length + operandCount toks - operatorCount toks := by
  intro toks
  induction toks with
  | nil =>
    intro branch final h
    simp only [buildLoop, LoopExit.finished.injEq] at h
    simp [h, operandCount, operatorCount]
  | cons token rest ih =>
    intro branch final h
    cases hop : isOperandToken token with
    | true =>
      rw [buildLoop_operand hop] at h
      have := ih _ _ h
      obtain ⟨e1, e2⟩ := counts_cons_operand hop rest
      rw [this, e1, e2]
      simp only [List.length_cons]
      push_cast
      ring
    | false =>
      cases ho : IsOperator token with
      | false => rw [buildLoop_invalid hop ho] at h; exact absurd h (by simp)
      | true =>
        match branch, h with
        | [], h => rw [buildLoop_operator_short ho _ _ (by simp)] at h; exact absurd h (by simp)
        | [_], h => rw [buildLoop_operator_short ho _ _ (by simp)] at h; exact absurd h (by simp)
        | r :: l :: below, h =>
          rw [buildLoop_operator ho] at h
          have := ih _ _ h
          obtain ⟨e1, e2⟩ := counts_cons_operator ho rest
          rw [this, e1, e2]
          simp only [List.length_cons]
          push_cast
          ring

/-- The loop runs to the end exactly when every token is recognised and
every operator finds two items on the stack. -/
theorem finished_iff :
    ∀ (toks : List String) (branch : List TreeNode),
      (∃ final, buildLoop toks branch = .finished final) ↔
        (∀ tok ∈ toks, isOperandToken tok = true ∨ IsOperator tok = true) ∧
        (∀ pre tok post, toks = pre ++ tok :: post → IsOperator tok = true →
          (2 : Int) ≤ branch.length + operandCount pre - operatorCount pre) := by
  intro toks
  induction toks with
  | nil =>
    intro branch
    simp [buildLoop]
  | cons token rest ih =>
    intro branch
    cases hop : isOperandToken token with
    | true =>
      rw [buildLoop_operand hop, ih]
      constructor
      · rintro ⟨h1, h2⟩
        refine ⟨?_, ?_⟩
        · intro tok htok
          rcases List.mem_cons.1 htok with e | e
          · rw [e]; exact Or.inl hop
          · exact h1 tok e
        · intro pre tok post e htok
          cases pre with
          | nil =>
            simp only [List.nil_append, List.cons.injEq] at e
            rw [← e.1, IsOperator_false_of_isOperandToken hop] at htok
            exact absurd htok (by decide)
          | cons p pre =>
            simp only [List.cons_append, List.cons.injEq] at e
            have := h2 pre tok post e.2 htok
            obtain ⟨e1, e2⟩ := counts_cons_operand hop pre
            rw [← e.1, e1, e2]
            simp only [List.length_cons] at this
            push_cast at this ⊢
            omega
      · rintro ⟨h1, h2⟩
        refine ⟨fun tok htok => h1 tok (List.mem_cons_of_mem _ htok), ?_⟩
        intro pre tok post e htok
        have := h2 (token :: pre) tok post (by rw [e]; rfl) htok
        obtain ⟨e1, e2⟩ := counts_cons_operand hop pre
        rw [e1, e2] at this
        simp only [List.length_cons]
        push_cast at this ⊢
        omega
    | false =>
      cases ho : IsOperator token with
      | false =>
        rw [buildLoop_invalid hop ho]
        constructor
        · rintro ⟨final, h⟩
          exact absurd h (by simp)
        · rintro ⟨h1, -⟩
          rcases h1 token (List.mem_cons_self _ _) with h | h
          · rw [hop] at h; exact absurd h (by decide)
          · rw [ho] at h; exact absurd h (by decide)
      | true =>
        by_cases hlen : branch.length < 2
        · rw [buildLoop_operator_short ho _ _ hlen]
          constructor
          · rintro ⟨final, h⟩
            exact absurd h (by simp)
          · rintro ⟨-, h2⟩
            have := h2 [] token rest rfl ho
            simp only [operandCount, operatorCount, List.countP_nil] at this
            push_cast at this
            omega
        · match branch, hlen with
          | [], hlen => exact absurd (by simp) hlen
          | [_], hlen => exact absurd (by simp) hlen
          | r :: l :: below, _ =>
            rw [buildLoop_operator ho, ih]
            constructor
            · rintro ⟨h1, h2⟩
              refine ⟨?_, ?_⟩
              · intro tok htok
                rcases List.mem_cons.1 htok with e | e
                · rw [e]; exact Or.inr ho
                · exact h1 tok e
              · intro pre tok post e htok
                cases pre with
                | nil =>
                  simp only [operandCount, operatorCount, List.countP_nil, List.length_cons]
                  push_cast
                  omega
                | cons p pre =>
                  simp only [List.cons_append, List.cons.injEq] at e
                  have := h2 pre tok post e.2 htok
                  obtain ⟨e1, e2⟩ := counts_cons_operator ho pre
                  rw [← e.1, e1, e2]
                  simp only [List.length_cons] at this ⊢
                  push_cast at this ⊢
                  omega
            · rintro ⟨h1, h2⟩
              refine ⟨fun tok htok => h1 tok (List.mem_cons_of_mem _ htok), ?_⟩
              intro pre tok post e htok
              have := h2 (token :: pre) tok post (by rw [e]; rfl) htok
              obtain ⟨e1, e2⟩ := counts_cons_operator ho pre
              rw [e1, e2] at this
              simp only [List.length_cons] at this ⊢
              push_cast at this ⊢
              omega

/-! ## Tokenising words separated by blanks -/

theorem extractTokens_word (w : List Char) (hw : ∀ c ∈ w, isspace c = false) :
    ∀ (rest cur : List Char),
      extractTokens (w ++ rest) cur = extractTokens rest (w.reverse ++ cur) := by
  induction w with
  | nil => intro rest cur; rfl
  | cons c w ih =>
    intro rest cur
    have hc : isspace c = false := hw c (List.mem_cons_self _ _)
    have := ih (fun d hd => hw d (List.mem_cons_of_mem _ hd)) rest (c :: cur)
    have e : (c :: w).reverse ++ cur = w.reverse ++ c :: cur := by simp
    rw [e, ← this]
    simp [extractTokens, hc]

theorem extractTokens_word_blank (w : String) (hne : w.data ≠ [])
    (hw : ∀ c ∈ w.data, isspace c = false) (rest : List Char) :
    extractTokens (w.data ++ ' ' :: rest) [] = w :: extractTokens rest [] := by
  rw [extractTokens_word w.data hw]
  have hsp : isspace ' ' = true := by decide
  have hemp : w.data.reverse.isEmpty = false := by
    cases h : w.data with
    | nil => exact absurd h hne
    | cons c cs => simp
  simp only [extractTokens, hsp, if_true, List.append_nil, hemp, Bool.false_eq_true, if_false,
    List.reverse_reverse]

theorem extractTokens_word_end (w : String) (hne : w.data ≠ [])
    (hw : ∀ c ∈ w.data, isspace c = false) :
    extractTokens w.data [] = [w] := by
  have := extractTokens_word w.data hw [] []
  rw [List.append_nil] at this
  rw [this]
  have hemp : w.data.reverse.isEmpty = false := by
    cases h : w.data with
    | nil => exact absurd h hne
    | cons c cs => simp
  simp only [extractTokens, List.append_nil, hemp, Bool.false_eq_true, if_false,
    List.reverse_reverse]

theorem word_of_isOperandToken {token : String} (h : isOperandToken token = true) :
    token.data ≠ [] ∧ ∀ c ∈ token.data, isspace c = false := by
  cases hn : IsNumber token with
  | true =>
    obtain ⟨h1, h2⟩ := (IsNumber_iff token).1 hn
    exact ⟨h1, fun c hc => isspace_of_isalnum (isalnum_of_isdigit (h2 c hc))⟩
  | false =>
    have hv : IsVariable token = true := by simpa [isOperandToken, hn] using h
    obtain ⟨c, cs, hd, -, hall⟩ := (IsVariable_iff token).1 hv
    rw [hd]
    exact ⟨by simp, fun d hd => isspace_of_isalnum (hall d hd)⟩

theorem word_of_IsOperator {token : String} (h : IsOperator token = true) :
    token.data ≠ [] ∧ ∀ c ∈ token.data, isspace c = false := by
  rcases (IsOperator_iff token).1 h with h | h | h <;> subst h <;> decide

/-- The input `l r op`, its three words separated by single blanks, has the tokens `l`, `r`, `op`. -/
theorem tokens_three (l r op : String)
    (hl : l.data ≠ [] ∧ ∀ c ∈ l.data, isspace c = false)
    (hr : r.data ≠ [] ∧ ∀ c ∈ r.data, isspace c = false)
    (hop : op.data ≠ [] ∧ ∀ c ∈ op.data, isspace c = false) :
    tokens (l ++ " " ++ r ++ " " ++ op) = [l, r, op] := by
  have e : (l ++ " " ++ r ++ " " ++ op).data = l.data ++ ' ' :: (r.data ++ ' ' :: op.data) := by
    simp [String.data_append]
  unfold tokens
  rw [e, extractTokens_word_blank l hl.1 hl.2, extractTokens_word_blank r hr.1 hr.2,
    extractTokens_word_end op hop.1 hop.2]

/-- The tree built from the three tokens `l r op`. -/
theorem BuildExpressionTree_three (self : ExpressionTree) (l r op : String)
    (hl : isOperandToken l = true) (hr : isOperandToken r = true)
    (hop : IsOperator op = true) :
    BuildExpressionTree self (l ++ " " ++ r ++ " " ++ op) =
      ⟨true, ⟨node Operator op (operandLeaf l) (operandLeaf r)⟩, ""⟩ := by
  apply BuildExpressionTree_of_finished
  rw [tokens_three l r op (word_of_isOperandToken hl) (word_of_isOperandToken hr)
    (word_of_IsOperator hop), buildLoop_operand hl, buildLoop_operand hr, buildLoop_operator hop]
  rfl

/-! ## The parser: claims C1, C2, C10 -/

/-- C1: for a well-formed tree `t`, `BuildExpressionTree` on `s` succeeds
with root `t` exactly when the post-order payloads of `t` are the
white-space separated tokens of `s`; and for operand tokens `a`, `b` the
input `a b -` gives a `-` node with left child `a` and right child `b`. -/
theorem build_succeeds_iff_postOrder (self : ExpressionTree) (s : String) (t : TreeNode)
    (a b : String) (ht : WellFormed t = true) (ha : isOperandToken a = true)
    (hb : isOperandToken b = true) :
    (((BuildExpressionTree self s).ret = true ∧ (BuildExpressionTree self s).tree._root = t) ↔
        postOrder t = tokens s) ∧
      (BuildExpressionTree self (a ++ " " ++ b ++ " " ++ "-")).ret = true ∧
      (BuildExpressionTree self (a ++ " " ++ b ++ " " ++ "-")).tree._root =
        node Operator "-" (operandLeaf a) (operandLeaf b) := by
  refine ⟨⟨?_, ?_⟩, ?_, ?_⟩
  · rintro ⟨hret, hroot⟩
    have h := finished_of_BuildExpressionTree self s hret
    rw [hroot] at h
    have := stackTokens_of_finished _ _ _ h
    simpa [stackTokens] using this
  · intro h
    have hloop : buildLoop (tokens s) [] = .finished [t] := by
      have := buildLoop_postOrder t ht [] []
      rw [List.append_nil, h] at this
      rw [this]
      rfl
    rw [BuildExpressionTree_of_finished self s t hloop]
    exact ⟨rfl, rfl⟩
  · rw [BuildExpressionTree_three self a b "-" ha hb (by decide)]
  · rw [BuildExpressionTree_three self a b "-" ha hb (by decide)]

/-- Witness of C1: the input `5 2 3 * +` and the tree of `5+(2*3)`, with the operands `x` and `4`. -/
theorem build_succeeds_iff_postOrder_witness :
    (((BuildExpressionTree ExpressionTree.empty "5 2 3 * +").ret = true ∧
        (BuildExpressionTree ExpressionTree.empty "5 2 3 * +").tree._root =
          node Operator "+" (TreeNode.new NumberOperand "5")
            (node Operator "*" (TreeNode.new NumberOperand "2") (TreeNode.new NumberOperand "3"))) ↔
        postOrder (node Operator "+" (TreeNode.new NumberOperand "5")
            (node Operator "*" (TreeNode.new NumberOperand "2") (TreeNode.new NumberOperand "3"))) =
          tokens "5 2 3 * +") ∧
      (BuildExpressionTree ExpressionTree.empty ("x" ++ " " ++ "4" ++ " " ++ "-")).ret = true ∧
      (BuildExpressionTree ExpressionTree.empty ("x" ++ " " ++ "4" ++ " " ++ "-")).tree._root =
        node Operator "-" (operandLeaf "x") (operandLeaf "4") :=
  build_succeeds_iff_postOrder ExpressionTree.empty "5 2 3 * +"
    (node Operator "+" (TreeNode.new NumberOperand "5")
      (node Operator "*" (TreeNode.new NumberOperand "2") (TreeNode.new NumberOperand "3")))
    "x" "4" (by decide) (by decide) (by decide)

/-- C2: `BuildExpressionTree` returns true exactly when every token is a
number, a variable or an operator, before each operator token the operand
tokens seen exceed the operator tokens seen by at least 2, and over the
whole input the operand tokens exceed the operator tokens by exactly 1; so
`3 4 +` succeeds and `3 +`, `3 4 ?`, `3 4`, the empty input and an input of
white space fail. -/
theorem build_returns_true_iff (self : ExpressionTree) (s : String) :
    ((BuildExpressionTree self s).ret = true ↔
      (∀ tok ∈ tokens s, IsNumber tok = true ∨ IsVariable tok = true ∨ IsOperator tok = true) ∧
      (∀ pre tok post, tokens s = pre ++ tok :: post → IsOperator tok = true →
        (2 : Int) ≤ (operandCount pre : Int) - (operatorCount pre : Int)) ∧
      (operandCount (tokens s) : Int) - (operatorCount (tokens s) : Int) = 1) ∧
    (BuildExpressionTree self "3 4 +").ret = true ∧
    (BuildExpressionTree self "3 +").ret = false ∧
    (BuildExpressionTree self "3 4 ?").ret = false ∧
    (BuildExpressionTree self "3 4").ret = false ∧
    (BuildExpressionTree self "").ret = false ∧
    (BuildExpressionTree self " \t\n ").ret = false := by
  refine ⟨⟨?_, ?_⟩, rfl, rfl, rfl, rfl, rfl, rfl⟩
  · intro hret
    have h := finished_of_BuildExpressionTree self s hret
    obtain ⟨h1, h2⟩ := (finished_iff (tokens s) []).1 ⟨_, h⟩
    have h3 := length_of_finished _ _ _ h
    refine ⟨?_, ?_, ?_⟩
    · intro tok htok
      rcases h1 tok htok with h | h
      · simp only [isOperandToken, Bool.or_eq_true] at h
        rcases h with h | h
        · exact Or.inl h
        · exact Or.inr (Or.inl h)
      · exact Or.inr (Or.inr h)
    · intro pre tok post e htok
      have := h2 pre tok post e htok
      simpa using this
    · simp only [List.length_singleton, List.length_nil] at h3
      push_cast at h3
      omega
  · rintro ⟨h1, h2, h3⟩
    obtain ⟨final, h⟩ := (finished_iff (tokens s) []).2 ⟨by
      intro tok htok
      rcases h1 tok htok with h | h | h
      · exact Or.inl (by simp [isOperandToken, h])
      · exact Or.inl (by simp [isOperandToken, h])
      · exact Or.inr h, by
      intro pre tok post e htok
      have := h2 pre tok post e htok
      simpa using this⟩
    have hlen := length_of_finished _ _ _ h
    have hone : final.length = 1 := by
      simp only [List.length_nil] at hlen
      push_cast at hlen
      omega
    match final, hone, h with
    | [root], _, h =>
      rw [BuildExpressionTree_of_finished self s root h]

/-- C10: every node of a tree produced by a successful `BuildExpressionTree`
satisfies the node invariant: the tree is well-formed, and each of its
nodes is an operator over `+ - *` with two non-null children, or a
childless number with a digit-run payload, or a childless variable with an
identifier payload. -/
theorem build_root_wellFormed (self : ExpressionTree) (s : String)
    (h : (BuildExpressionTree self s).ret = true) :
    WellFormed (BuildExpressionTree self s).tree._root = true ∧
      ∀ n ∈ (BuildExpressionTree self s).tree._root.nodes, nodeInvariant n = true := by
  have hfin := finished_of_BuildExpressionTree self s h
  have hwf := wellFormed_of_finished _ _ _ (by simp) hfin _ (List.mem_singleton_self _)
  exact ⟨hwf, nodeInvariant_of_WellFormed _ hwf⟩

/-- Witness of C10: the tree built from `5 2 3 * +`. -/
theorem build_root_wellFormed_witness :
    WellFormed (BuildExpressionTree ExpressionTree.empty "5 2 3 * +").tree._root = true ∧
      ∀ n ∈ (BuildExpressionTree ExpressionTree.empty "5 2 3 * +").tree._root.nodes,
        nodeInvariant n = true :=
  build_root_wellFormed ExpressionTree.empty "5 2 3 * +" (by decide)

/-! ## The renderer and the comparison: claims C8, C9 -/

/-- A well-formed tree renders, whatever the flag. -/
theorem ToString_isSome :
    ∀ t : TreeNode, WellFormed t = true → ∀ flag : Bool, ∃ text, ToString t flag = some text := by
  intro t
  induction t with
  | nil => intro h; simp [WellFormed] at h
  | node type data left right ihl ihr =>
    intro h flag
    cases type with
    | NumberOperand => exact ⟨data, by simp [ToString]⟩
    | VariableOperand => exact ⟨data, by simp [ToString]⟩
    | Operator =>
      obtain ⟨-, hl, hr⟩ := WellFormed_operator.1 h
      obtain ⟨sl, el⟩ := ihl hl true
      obtain ⟨sr, er⟩ := ihr hr true
      exact ⟨(if flag = true then "(" else "") ++ sl ++ data ++ sr ++
        (if flag = true then ")" else ""), by simp [ToString, el, er]⟩

/-- C8: on a well-formed tree `ToString` gives a text; for a leaf it is the
payload whatever the flag; for an operator node it is the text of the left
child (flag true), the operator and the text of the right child (flag
true), wrapped in parentheses exactly when the flag is true. The trees
built from `3 4 +` and `5 2 3 * +` render with the flag false as `3+4` and
`5+(2*3)`. -/
theorem ToString_spec (t : TreeNode) (flag : Bool) (ht : WellFormed t = true) :
    (∃ text, ToString t flag = some text) ∧
    (∀ type data, t = node type data nil nil → ToString t flag = some data) ∧
    (∀ op l r, t = node Operator op l r →
      ∃ sl sr, ToString l true = some sl ∧ ToString r true = some sr ∧
        ToString t true = some ("(" ++ sl ++ op ++ sr ++ ")") ∧
        ToString t false = some (sl ++ op ++ sr)) ∧
    ToString (BuildExpressionTree ExpressionTree.empty "3 4 +").tree._root false = some "3+4" ∧
    ToString (BuildExpressionTree ExpressionTree.empty "5 2 3 * +").tree._root false =
      some "5+(2*3)" := by
  refine ⟨ToString_isSome t ht flag, ?_, ?_, by decide, by decide⟩
  · intro type data e
    subst e
    cases type with
    | NumberOperand => simp [ToString]
    | VariableOperand => simp [ToString]
    | Operator =>
      have := (WellFormed_operator.1 ht).2.1
      simp [WellFormed] at this
  · intro op l r e
    subst e
    obtain ⟨-, hl, hr⟩ := WellFormed_operator.1 ht
    obtain ⟨sl, el⟩ := ToString_isSome l hl true
    obtain ⟨sr, er⟩ := ToString_isSome r hr true
    refine ⟨sl, sr, el, er, ?_, ?_⟩
    · simp [ToString, el, er]
    · simp [ToString, el, er]

/-- Witness of C8: the tree of `5+(2*3)` rendered with the flag false. -/
theorem ToString_spec_witness :
    (∃ text, ToString (node Operator "+" (TreeNode.new NumberOperand "5")
        (node Operator "*" (TreeNode.new NumberOperand "2") (TreeNode.new NumberOperand "3")))
        false = some text) ∧
      ToString (BuildExpressionTree ExpressionTree.empty "5 2 3 * +").tree._root false =
        some "5+(2*3)" :=
  have h := ToString_spec (node Operator "+" (TreeNode.new NumberOperand "5")
    (node Operator "*" (TreeNode.new NumberOperand "2") (TreeNode.new NumberOperand "3")))
    false (by decide)
  ⟨h.1, h.2.2.2.2⟩

/-- C9 (the code at the failing input): `IsSameTree` answers false for every
pair of trees, also for a tree compared with itself and for two empty
subtrees. -/
theorem IsSameTree_always_false (a b : TreeNode) :
    IsSameTree a b = false ∧ IsSameTree a a = false ∧ IsSameTree nil nil = false ∧
      IsSameTree (TreeNode.new NumberOperand "3") (TreeNode.new NumberOperand "3") = false :=
  ⟨rfl, rfl, rfl, rfl⟩

/-! ## Undefined results of the simplifier: claims C3, C4 -/

/-- C3 (the code at the failing input): `3 5 - 2 +` is accepted with an
operator at the root; the left operand `3 5 -` folds to the number leaf
`-2`, which `IsNumber` does not take for a number, and as neither child is
a variable operand `SimplifyTree` reaches line 214 with `node` never
assigned: the result is undefined. -/
theorem SimplifyTree_undefined_after_negative_fold :
    (BuildExpressionTree ExpressionTree.empty "3 5 - 2 +").ret = true ∧
    (BuildExpressionTree ExpressionTree.empty "3 5 - 2 +").tree._root =
      node Operator "+"
        (node Operator "-" (TreeNode.new NumberOperand "3") (TreeNode.new NumberOperand "5"))
        (TreeNode.new NumberOperand "2") ∧
    SimplifyTree
        (node Operator "-" (TreeNode.new NumberOperand "3") (TreeNode.new NumberOperand "5")) =
      .returned (TreeNode.new NumberOperand "-2") ∧
    IsNumber "-2" = false ∧
    SimplifyTree (BuildExpressionTree ExpressionTree.empty "3 5 - 2 +").tree._root =
      .undefined := by
  decide

/-- C4 (the code at the failing input): `1 2 - 3 *` is made of numbers and
operators only, is accepted with an operator at the root, its constants and
intermediate values `1, 2, -1, 3, -3` all fit in an `int` and its value is
`-3`; yet `SimplifyTree` has no defined result on it, instead of the number
leaf `-3`. -/
theorem SimplifyTree_misses_negative_intermediate :
    (BuildExpressionTree ExpressionTree.empty "1 2 - 3 *").ret = true ∧
    (BuildExpressionTree ExpressionTree.empty "1 2 - 3 *").tree._root =
      node Operator "*"
        (node Operator "-" (TreeNode.new NumberOperand "1") (TreeNode.new NumberOperand "2"))
        (TreeNode.new NumberOperand "3") ∧
    numbersOnly (BuildExpressionTree ExpressionTree.empty "1 2 - 3 *").tree._root = true ∧
    allFitInt (BuildExpressionTree ExpressionTree.empty "1 2 - 3 *").tree._root = true ∧
    exactValue (BuildExpressionTree ExpressionTree.empty "1 2 - 3 *").tree._root = -3 ∧
    SimplifyTree (BuildExpressionTree ExpressionTree.empty "1 2 - 3 *").tree._root =
      .undefined ∧
    SimplifyTree (BuildExpressionTree ExpressionTree.empty "1 2 - 3 *").tree._root ≠
      .returned (TreeNode.new NumberOperand (to_string (-3))) := by
  decide

/-! ## Decimal text: `std::stoi` and `std::to_string` -/

theorem decimalValue_append_singleton (xs : List Char) (d : Char) :
    decimalValue (xs ++ [d]) = 10 * decimalValue xs + (d.toNat - 48) := by
  simp [decimalValue, List.foldl_append]

theorem digitChar_spec :
    ∀ k, k < 10 → isdigit (Nat.digitChar k) = true ∧ (Nat.digitChar k).toNat - 48 = k := by
  decide

theorem toDigitsCore_acc (fuel : Nat) :
    ∀ (n : Nat) (ds : List Char),
      Nat.toDigitsCore 10 fuel n ds = Nat.toDigitsCore 10 fuel n [] ++ ds := by
  induction fuel with
  | zero => intro n ds; simp [Nat.toDigitsCore]
  | succ fuel ih =>
    intro n ds
    simp only [Nat.toDigitsCore]
    by_cases h : n / 10 = 0
    · simp [h]
    · simp only [h, if_false]
      rw [ih (n / 10) (Nat.digitChar (n % 10) :: ds), ih (n / 10) [Nat.digitChar (n % 10)]]
      simp

/-- The digits `std::to_string` writes for a natural number: a non-empty
run of digits whose value is the number. -/
theorem toDigitsCore_spec :
    ∀ (n fuel : Nat), n < fuel →
      Nat.toDigitsCore 10 fuel n [] ≠ [] ∧
      (∀ c ∈ Nat.toDigitsCore 10 fuel n [], isdigit c = true) ∧
      decimalValue (Nat.toDigitsCore 10 fuel n []) = n := by
  intro n
  induction n using Nat.strong_induction_on with
  | _ n ih =>
    intro fuel hfuel
    cases fuel with
    | zero => omega
    | succ fuel =>
      obtain ⟨hd1, hd2⟩ := digitChar_spec (n % 10) (Nat.mod_lt _ (by decide))
      simp only [Nat.toDigitsCore]
      by_cases h : n / 10 = 0
      · simp only [h, if_true]
        refine ⟨by simp, ?_, ?_⟩
        · intro c hc
          simp only [List.mem_singleton] at hc
          rw [hc]; exact hd1
        · simp only [decimalValue, List.foldl_cons, List.foldl_nil, hd2]
          omega
      · simp only [h, if_false]
        rw [toDigitsCore_acc]
        have hlt : n / 10 < n := Nat.div_lt_self (by omega) (by decide)
        obtain ⟨-, i2, i3⟩ := ih (n / 10) hlt fuel (by omega)
        refine ⟨by simp, ?_, ?_⟩
        · intro c hc
          rcases List.mem_append.1 hc with hc | hc
          · exact i2 c hc
          · simp only [List.mem_singleton] at hc
            rw [hc]; exact hd1
        · rw [decimalValue_append_singleton, i3, hd2]
          omega

theorem toDigits_spec (n : Nat) :
    IsNumber (String.mk (Nat.toDigits 10 n)) = true ∧ decimalValue (Nat.toDigits 10 n) = n := by
  obtain ⟨h1, h2, h3⟩ := toDigitsCore_spec n (n + 1) (Nat.lt_succ_self n)
  exact ⟨(IsNumber_iff _).2 ⟨h1, h2⟩, h3⟩

/-- The text of `std::to_string` is the decimal text of the value: for a
value that is not negative a digit run denoting it, for a negative value a
`-` followed by a digit run denoting its magnitude. -/
theorem to_string_spec (v : Int) :
    (0 ≤ v → IsNumber (to_string v) = true ∧ (decimalValue (to_string v).data : Int) = v) ∧
    (v < 0 → ∃ digits : String, to_string v = "-" ++ digits ∧ IsNumber digits = true ∧
      (decimalValue digits.data : Int) = -v) := by
  obtain ⟨h1, h2⟩ := toDigits_spec v.natAbs
  constructor
  · intro hv
    have hnot : ¬ v < 0 := by omega
    simp only [to_string, hnot, if_false]
    refine ⟨h1, ?_⟩
    rw [h2]
    omega
  · intro hv
    refine ⟨String.mk (Nat.toDigits 10 v.natAbs), by simp [to_string, hv], h1, ?_⟩
    rw [h2]
    omega

theorem readSign_digit {c : Char} (hc : isdigit c = true) (cs : List Char) :
    readSign (c :: cs) = (false, c :: cs) := by
  unfold readSign
  split
  · rename_i rest heq
    simp only [List.cons.injEq] at heq
    rw [heq.1] at hc
    exact absurd hc (by decide)
  · rename_i rest heq
    simp only [List.cons.injEq] at heq
    rw [heq.1] at hc
    exact absurd hc (by decide)
  · rfl

/-- On a digit run `std::stoi` gives the number the run denotes, and throws
`std::out_of_range` when that number exceeds `INT_MAX`. -/
theorem stoi_of_IsNumber {s : String} (h : IsNumber s = true) :
    stoi s = if (decimalValue s.data : Int) ≤ INT_MAX then some (decimalValue s.data : Int)
      else none := by
  obtain ⟨hne, hall⟩ := (IsNumber_iff s).1 h
  cases hd : s.data with
  | nil => exact absurd hd hne
  | cons c cs =>
    rw [hd] at hall
    have hc : isdigit c = true := hall c (List.mem_cons_self _ _)
    have hsp : isspace c = false := isspace_of_isalnum (isalnum_of_isdigit hc)
    have htake : (c :: cs).takeWhile isdigit = c :: cs := List.takeWhile_eq_self_iff.2 hall
    have hmin : INT_MIN ≤ (decimalValue (c :: cs) : Int) := by
      have : (0 : Int) ≤ (decimalValue (c :: cs) : Int) := Int.natCast_nonneg _
      simp only [INT_MIN]
      omega
    simp only [stoi, hd, List.dropWhile, hsp, readSign_digit hc, htake, List.isEmpty_cons,
      Bool.false_eq_true, if_false, hmin, true_and]

/-! ## One step of the simplifier -/

theorem SimplifyTree_node (type : NodeType) (data : String) (left right : TreeNode) :
    SimplifyTree (node type data left right) =
      match simplifiedChild left with
      | .returned l =>
        match simplifiedChild right with
        | .returned r => rewriteNode data l r
        | other => other
      | other => other := by
  rfl

theorem SimplifyTree_of_children (type : NodeType) (data : String) (left right l r : TreeNode)
    (hl : simplifiedChild left = .returned l) (hr : simplifiedChild right = .returned r) :
    SimplifyTree (node type data left right) = rewriteNode data l r := by
  rw [SimplifyTree_node, hl, hr]

theorem simplifiedChild_number (data : String) :
    simplifiedChild (TreeNode.new NumberOperand data) =
      .returned (TreeNode.new NumberOperand data) := by
  simp [simplifiedChild, needsSimplify, TreeNode.IsNumber, TreeNode.new]

theorem simplifiedChild_variable {data : String} (h : IsVariable data = true) :
    simplifiedChild (TreeNode.new VariableOperand data) =
      .returned (TreeNode.new VariableOperand data) := by
  simp [simplifiedChild, needsSimplify, TreeNode.IsNumber, TreeNode.new, h]

theorem simplifiedChild_operandLeaf {token : String} (h : isOperandToken token = true) :
    simplifiedChild (operandLeaf token) = .returned (operandLeaf token) := by
  unfold operandLeaf
  cases hn : IsNumber token with
  | true => simpa using simplifiedChild_number token
  | false =>
    have hv : IsVariable token = true := by simpa [isOperandToken, hn] using h
    simpa using simplifiedChild_variable hv

theorem wrapInt_of_fits {z : Int} (h1 : INT_MIN ≤ z) (h2 : z ≤ INT_MAX) : wrapInt z = z := by
  simp only [INT_MIN, INT_MAX] at h1 h2
  simp only [wrapInt]
  omega

theorem foldConstants_of_IsOperator {op : String} (hop : IsOperator op = true) (x y : Int) :
    foldConstants op x y = wrapInt (applyOperator op x y) := by
  rcases (IsOperator_iff op).1 hop with h | h | h <;> subst h <;>
    simp [foldConstants, applyOperator]

theorem rewriteSymbolic_eq_ruleTable {op : String} (hop : IsOperator op = true) (l r : String) :
    rewriteSymbolic op l r = ruleTable op l r := by
  rcases (IsOperator_iff op).1 hop with h | h | h <;> subst h <;>
    simp [rewriteSymbolic, ruleTable]

/-- The symbolic branch (lines 151-213): two leaves, one of them tagged as a
variable operand, whose texts are not both digit runs. -/
theorem rewriteNode_symbolic (op : String) (lt rt : NodeType) (ld rd : String)
    (hvar : lt = VariableOperand ∨ rt = VariableOperand)
    (hdig : ¬ (IsNumber ld = true ∧ IsNumber rd = true)) :
    rewriteNode op (TreeNode.new lt ld) (TreeNode.new rt rd) =
      .returned (TreeNode.new VariableOperand (rewriteSymbolic op ld rd)) := by
  have h1 : (IsNumber ld && IsNumber rd) = false := by
    cases h : (IsNumber ld && IsNumber rd) with
    | false => rfl
    | true => exact absurd (by simpa using h) hdig
  have h2 : (lt == VariableOperand || rt == VariableOperand) = true := by
    rcases hvar with h | h <;> subst h <;> simp
  simp only [rewriteNode, TreeNode.new, h1, h2, Bool.false_eq_true, if_false, if_true]

/-- The numeric branch (lines 130-150): two leaves whose texts are digit runs in `int` range. -/
theorem rewriteNode_numeric (op : String) (lt rt : NodeType) (ld rd : String)
    (hl : IsNumber ld = true) (hr : IsNumber rd = true)
    (hfl : (decimalValue ld.data : Int) ≤ INT_MAX) (hfr : (decimalValue rd.data : Int) ≤ INT_MAX) :
    rewriteNode op (TreeNode.new lt ld) (TreeNode.new rt rd) =
      .returned (TreeNode.new NumberOperand
        (to_string (foldConstants op (decimalValue ld.data) (decimalValue rd.data)))) := by
  simp only [rewriteNode, TreeNode.new, hl, hr, Bool.and_self, if_true, stoi_of_IsNumber hl,
    stoi_of_IsNumber hr, hfl, hfr]

/-! ## Constant folding and the symbolic rules: claims C5, C6, C7 -/

/-- C5: for an operator `op` among `+ - *` and two number leaves with
digit-run payloads `a`, `b` such that `a`, `b` and `a op b` fit in an `int`,
`SimplifyTree` on the node `(op, a, b)` returns a number leaf whose payload
is the decimal text of `a op b`: a digit run denoting it, after a `-` when
it is negative. The tree built from `3 4 +` gives `7`. -/
theorem SimplifyTree_folds_constants (op a b : String) (hop : IsOperator op = true)
    (ha : IsNumber a = true) (hb : IsNumber b = true)
    (hfa : (decimalValue a.data : Int) ≤ INT_MAX) (hfb : (decimalValue b.data : Int) ≤ INT_MAX)
    (hlo : INT_MIN ≤ applyOperator op (decimalValue a.data) (decimalValue b.data))
    (hhi : applyOperator op (decimalValue a.data) (decimalValue b.data) ≤ INT_MAX) :
    SimplifyTree (node Operator op (TreeNode.new NumberOperand a) (TreeNode.new NumberOperand b)) =
      .returned (TreeNode.new NumberOperand
        (to_string (applyOperator op (decimalValue a.data) (decimalValue b.data)))) ∧
    (0 ≤ applyOperator op (decimalValue a.data) (decimalValue b.data) →
      IsNumber (to_string (applyOperator op (decimalValue a.data) (decimalValue b.data))) = true ∧
      (decimalValue
        (to_string (applyOperator op (decimalValue a.data) (decimalValue b.data))).data : Int) =
        applyOperator op (decimalValue a.data) (decimalValue b.data)) ∧
    (applyOperator op (decimalValue a.data) (decimalValue b.data) < 0 →
      ∃ digits : String,
        to_string (applyOperator op (decimalValue a.data) (decimalValue b.data)) =
          "-" ++ digits ∧
        IsNumber digits = true ∧
        (decimalValue digits.data : Int) =
          -applyOperator op (decimalValue a.data) (decimalValue b.data)) ∧
    SimplifyTree (BuildExpressionTree ExpressionTree.empty "3 4 +").tree._root =
      .returned (TreeNode.new NumberOperand "7") := by
  refine ⟨?_, (to_string_spec _).1, (to_string_spec _).2, by decide⟩
  rw [SimplifyTree_of_children _ _ _ _ _ _ (simplifiedChild_number a) (simplifiedChild_number b),
    rewriteNode_numeric op _ _ a b ha hb hfa hfb, foldConstants_of_IsOperator hop,
    wrapInt_of_fits hlo hhi]

/-- Witness of C5: `3 - 5` folds to the number leaf `-2`. -/
theorem SimplifyTree_folds_constants_witness :
    SimplifyTree (node Operator "-" (TreeNode.new NumberOperand "3")
        (TreeNode.new NumberOperand "5")) =
      .returned (TreeNode.new NumberOperand
        (to_string (applyOperator "-" (decimalValue "3".data) (decimalValue "5".data)))) ∧
    to_string (applyOperator "-" (decimalValue "3".data) (decimalValue "5".data)) = "-2" :=
  ⟨(SimplifyTree_folds_constants "-" "3" "5" (by decide) (by decide) (by decide) (by decide)
    (by decide) (by decide) (by decide)).1, by decide⟩

/-- C6: for an operator `op` and operand tokens `l`, `r` of which at least
one is a variable token, the input `l r op` is accepted and `SimplifyTree`
on the tree built from it returns a variable-operand leaf whose payload is
given by the rule table. So `x+0` gives `x`, `0*x` gives `0`, `x-x` gives
`0`, `1*x` gives `x`, `x+y` gives `(x+y)` and `0-x` gives `(-x)`. -/
theorem SimplifyTree_rule_table (self : ExpressionTree) (op l r : String)
    (hop : IsOperator op = true) (hl : isOperandToken l = true) (hr : isOperandToken r = true)
    (hv : IsVariable l = true ∨ IsVariable r = true) :
    (BuildExpressionTree self (l ++ " " ++ r ++ " " ++ op)).ret = true ∧
    SimplifyTree (BuildExpressionTree self (l ++ " " ++ r ++ " " ++ op)).tree._root =
      .returned (TreeNode.new VariableOperand (ruleTable op l r)) ∧
    SimplifyTree (BuildExpressionTree self "x 0 +").tree._root =
      .returned (TreeNode.new VariableOperand "x") ∧
    SimplifyTree (BuildExpressionTree self "0 x *").tree._root =
      .returned (TreeNode.new VariableOperand "0") ∧
    SimplifyTree (BuildExpressionTree self "x x -").tree._root =
      .returned (TreeNode.new VariableOperand "0") ∧
    SimplifyTree (BuildExpressionTree self "1 x *").tree._root =
      .returned (TreeNode.new VariableOperand "x") ∧
    SimplifyTree (BuildExpressionTree self "x y +").tree._root =
      .returned (TreeNode.new VariableOperand "(x+y)") ∧
    SimplifyTree (BuildExpressionTree self "0 x -").tree._root =
      .returned (TreeNode.new VariableOperand "(-x)") := by
  refine ⟨?_, ?_, rfl, rfl, rfl, rfl, rfl, rfl⟩
  · rw [BuildExpressionTree_three self l r op hl hr hop]
  · rw [BuildExpressionTree_three self l r op hl hr hop]
    simp only
    rw [SimplifyTree_of_children _ _ _ _ _ _ (simplifiedChild_operandLeaf hl)
      (simplifiedChild_operandLeaf hr), ← rewriteSymbolic_eq_ruleTable hop]
    have hdig : ¬ (IsNumber l = true ∧ IsNumber r = true) := by
      rintro ⟨h1, h2⟩
      rcases hv with h | h
      · rw [IsNumber_false_of_IsVariable h] at h1; exact absurd h1 (by decide)
      · rw [IsNumber_false_of_IsVariable h] at h2; exact absurd h2 (by decide)
    have hkind : (if IsNumber l = true then NumberOperand else VariableOperand) = VariableOperand ∨
        (if IsNumber r = true then NumberOperand else VariableOperand) = VariableOperand := by
      rcases hv with h | h
      · exact Or.inl (by simp [IsNumber_false_of_IsVariable h])
      · exact Or.inr (by simp [IsNumber_false_of_IsVariable h])
    have el : operandLeaf l =
        TreeNode.new (if IsNumber l = true then NumberOperand else VariableOperand) l := by
      unfold operandLeaf; split <;> rfl
    have er : operandLeaf r =
        TreeNode.new (if IsNumber r = true then NumberOperand else VariableOperand) r := by
      unfold operandLeaf; split <;> rfl
    rw [el, er]
    exact rewriteNode_symbolic op _ _ l r hkind hdig

/-- Witness of C6: the tokens `0`, `count2` and `-`. -/
theorem SimplifyTree_rule_table_witness :
    (BuildExpressionTree ExpressionTree.empty ("0" ++ " " ++ "count2" ++ " " ++ "-")).ret = true ∧
    SimplifyTree
        (BuildExpressionTree ExpressionTree.empty
          ("0" ++ " " ++ "count2" ++ " " ++ "-")).tree._root =
      .returned (TreeNode.new VariableOperand (ruleTable "-" "0" "count2")) ∧
    ruleTable "-" "0" "count2" = "(-count2)" :=
  have h := SimplifyTree_rule_table ExpressionTree.empty "-" "0" "count2" (by decide) (by decide)
    (by decide) (Or.inr (by decide))
  ⟨h.1, h.2.1, by decide⟩

/-- C7 (as stated, refuted): in the tree built from `x x - 5 -` the root's
children after simplification are the variable-operand leaf `0` and the
number leaf `5`, yet `SimplifyTree` returns the number leaf `-5`, not the
variable-operand leaf `(-5)`; and on `x x - 5 +` it returns the number leaf
`5`, not a variable-operand leaf. -/
theorem symbolic_rules_skipped_for_digit_texts :
    (BuildExpressionTree ExpressionTree.empty "x x - 5 -").tree._root =
      node Operator "-"
        (node Operator "-" (TreeNode.new VariableOperand "x") (TreeNode.new VariableOperand "x"))
        (TreeNode.new NumberOperand "5") ∧
    simplifiedChild
        (node Operator "-" (TreeNode.new VariableOperand "x") (TreeNode.new VariableOperand "x")) =
      .returned (TreeNode.new VariableOperand "0") ∧
    simplifiedChild (TreeNode.new NumberOperand "5") =
      .returned (TreeNode.new NumberOperand "5") ∧
    SimplifyTree (BuildExpressionTree ExpressionTree.empty "x x - 5 -").tree._root =
      .returned (TreeNode.new NumberOperand "-5") ∧
    SimplifyTree (BuildExpressionTree ExpressionTree.empty "x x - 5 -").tree._root ≠
      .returned (TreeNode.new VariableOperand "(-5)") ∧
    SimplifyTree (BuildExpressionTree ExpressionTree.empty "x x - 5 +").tree._root =
      .returned (TreeNode.new NumberOperand "5") ∧
    SimplifyTree (BuildExpressionTree ExpressionTree.empty "x x - 5 +").tree._root ≠
      .returned (TreeNode.new VariableOperand "5") := by
  decide

/-- C7 (amended): for an operator node over `+ - *` whose two children,
after its operator children have been replaced by their simplifications,
are leaves of which at least one is tagged as a variable operand and whose
texts are not both digit runs, `SimplifyTree` applies the symbolic rewrite
rules for its operator and returns a leaf tagged as a variable operand. On
`x x - y -` the result is the variable-operand leaf `(-y)` and on
`x x - y +` it is the variable-operand leaf `y`. -/
theorem SimplifyTree_symbolic_branch (type : NodeType) (op : String) (left right : TreeNode)
    (lt rt : NodeType) (ld rd : String) (hop : IsOperator op = true)
    (hl : simplifiedChild left = .returned (TreeNode.new lt ld))
    (hr : simplifiedChild right = .returned (TreeNode.new rt rd))
    (hvar : lt = VariableOperand ∨ rt = VariableOperand)
    (hdig : ¬ (IsNumber ld = true ∧ IsNumber rd = true)) :
    SimplifyTree (node type op left right) =
      .returned (TreeNode.new VariableOperand (ruleTable op ld rd)) ∧
    SimplifyTree (BuildExpressionTree ExpressionTree.empty "x x - y -").tree._root =
      .returned (TreeNode.new VariableOperand "(-y)") ∧
    SimplifyTree (BuildExpressionTree ExpressionTree.empty "x x - y +").tree._root =
      .returned (TreeNode.new VariableOperand "y") := by
  refine ⟨?_, by decide, by decide⟩
  rw [SimplifyTree_of_children _ _ _ _ _ _ hl hr, rewriteNode_symbolic op lt rt ld rd hvar hdig,
    rewriteSymbolic_eq_ruleTable hop]

/-- Witness of C7 (amended): the root of the tree built from `x x - y -`,
whose children become the variable-operand leaves `0` and `y`. -/
theorem SimplifyTree_symbolic_branch_witness :
    SimplifyTree (node Operator "-"
        (node Operator "-" (TreeNode.new VariableOperand "x") (TreeNode.new VariableOperand "x"))
        (TreeNode.new VariableOperand "y")) =
      .returned (TreeNode.new VariableOperand (ruleTable "-" "0" "y")) ∧
    ruleTable "-" "0" "y" = "(-y)" :=
  ⟨(SimplifyTree_symbolic_branch Operator "-"
    (node Operator "-" (TreeNode.new VariableOperand "x") (TreeNode.new VariableOperand "x"))
    (TreeNode.new VariableOperand "y") VariableOperand VariableOperand "0" "y" (by decide)
    (by decide) (by decide) (Or.inl rfl) (by decide)).1, by decide⟩

/-! ## Folding a tree of numbers whose inner values are not negative -/

/-- A child that is a well-formed tree of numbers, all of whose values fit
in an `int` and are not negative, is a number leaf after lines 121-128: its
text is a digit run denoting the value of the child. -/
theorem simplifiedChild_numbers :
    ∀ t : TreeNode, WellFormed t = true → numbersOnly t = true → allFitInt t = true →
      allNonNeg t = true →
      ∃ d : String, simplifiedChild t = .returned (TreeNode.new NumberOperand d) ∧
        IsNumber d = true ∧ (decimalValue d.data : Int) = exactValue t := by
  intro t
  induction t with
  | nil => intro h; simp [WellFormed] at h
  | node type data left right ihl ihr =>
    intro hwf hnum hfit hnn
    cases type with
    | NumberOperand =>
      obtain ⟨hd, hl, hr⟩ := WellFormed_number.1 hwf
      subst hl hr
      exact ⟨data, simplifiedChild_number data, hd, by simp [exactValue]⟩
    | VariableOperand => simp [numbersOnly] at hnum
    | Operator =>
      obtain ⟨hop, hwl, hwr⟩ := WellFormed_operator.1 hwf
      simp only [numbersOnly, Bool.and_eq_true] at hnum
      simp only [allFitInt, fitsInt, Bool.and_eq_true, decide_eq_true_eq] at hfit
      simp only [allNonNeg, Bool.and_eq_true, decide_eq_true_eq] at hnn
      obtain ⟨dl, el, nl, vl⟩ := ihl hwl hnum.1 hfit.1.2 hnn.1.2
      obtain ⟨dr, er, nr, vr⟩ := ihr hwr hnum.2 hfit.2 hnn.2
      have hfl : (decimalValue dl.data : Int) ≤ INT_MAX := by
        rw [vl]
        cases left with
        | nil => simp [WellFormed] at hwl
        | node _ _ _ _ =>
          simp only [allFitInt, fitsInt, Bool.and_eq_true, decide_eq_true_eq] at hfit
          exact hfit.1.2.1.1.2
      have hfr : (decimalValue dr.data : Int) ≤ INT_MAX := by
        rw [vr]
        cases right with
        | nil => simp [WellFormed] at hwr
        | node _ _ _ _ =>
          simp only [allFitInt, fitsInt, Bool.and_eq_true, decide_eq_true_eq] at hfit
          exact hfit.2.1.1.2
      have hval : exactValue (node Operator data left right) =
          applyOperator data (decimalValue dl.data) (decimalValue dr.data) := by
        simp only [exactValue, vl, vr]
      have hstep : simplifiedChild (node Operator data left right) =
          SimplifyTree (node Operator data left right) := by
        have hne : (Operator == NumberOperand) = false := by decide
        simp [simplifiedChild, needsSimplify, TreeNode.IsNumber, hne,
          IsVariable_false_of_IsOperator hop]
      refine ⟨to_string (exactValue (node Operator data left right)), ?_,
        ((to_string_spec _).1 hnn.1.1).1, ((to_string_spec _).1 hnn.1.1).2⟩
      rw [hstep, SimplifyTree_of_children _ _ _ _ _ _ el er,
        rewriteNode_numeric data _ _ dl dr nl nr hfl hfr, foldConstants_of_IsOperator hop,
        ← hval, wrapInt_of_fits hfit.1.1.1 hfit.1.1.2]

/-- Constant folding of a whole expression, where the code achieves it: for
a well-formed operator-rooted tree of numbers whose constants and
intermediate values fit in an `int`, and whose two operands have no
negative value anywhere, `SimplifyTree` returns the number leaf carrying the
decimal text of the value of the expression. -/
theorem SimplifyTree_numbers_of_nonneg_operands (op : String) (left right : TreeNode)
    (hwf : WellFormed (node Operator op left right) = true)
    (hnum : numbersOnly (node Operator op left right) = true)
    (hfit : allFitInt (node Operator op left right) = true)
    (hl : allNonNeg left = true) (hr : allNonNeg right = true) :
    SimplifyTree (node Operator op left right) =
      .returned (TreeNode.new NumberOperand
        (to_string (exactValue (node Operator op left right)))) := by
  obtain ⟨hop, hwl, hwr⟩ := WellFormed_operator.1 hwf
  simp only [numbersOnly, Bool.and_eq_true] at hnum
  have hfit2 := hfit
  simp only [allFitInt, fitsInt, Bool.and_eq_true, decide_eq_true_eq] at hfit2
  obtain ⟨dl, el, nl, vl⟩ := simplifiedChild_numbers left hwl hnum.1 hfit2.1.2 hl
  obtain ⟨dr, er, nr, vr⟩ := simplifiedChild_numbers right hwr hnum.2 hfit2.2 hr
  have hfl : (decimalValue dl.data : Int) ≤ INT_MAX := by
    rw [vl]
    cases left with
    | nil => simp [WellFormed] at hwl
    | node _ _ _ _ =>
      simp only [allFitInt, fitsInt, Bool.and_eq_true, decide_eq_true_eq] at hfit
      exact hfit.1.2.1.1.2
  have hfr : (decimalValue dr.data : Int) ≤ INT_MAX := by
    rw [vr]
    cases right with
    | nil => simp [WellFormed] at hwr
    | node _ _ _ _ =>
      simp only [allFitInt, fitsInt, Bool.and_eq_true, decide_eq_true_eq] at hfit
      exact hfit.2.1.1.2
  have hval : exactValue (node Operator op left right) =
      applyOperator op (decimalValue dl.data) (decimalValue dr.data) := by
    simp only [exactValue, vl, vr]
  rw [SimplifyTree_of_children _ _ _ _ _ _ el er,
    rewriteNode_numeric op _ _ dl dr nl nr hfl hfr, foldConstants_of_IsOperator hop,
    ← hval, wrapInt_of_fits hfit2.1.1.1 hfit2.1.1.2]

/-- The scenario of the specification: `5 2 3 * +` folds to the number leaf `11`. -/
theorem SimplifyTree_scenario :
    SimplifyTree (BuildExpressionTree ExpressionTree.empty "5 2 3 * +").tree._root =
      .returned (TreeNode.new NumberOperand "11") ∧
    to_string (exactValue (BuildExpressionTree ExpressionTree.empty "5 2 3 * +").tree._root) =
      "11" :=
  ⟨SimplifyTree_numbers_of_nonneg_operands "+" (TreeNode.new NumberOperand "5")
    (node Operator "*" (TreeNode.new NumberOperand "2") (TreeNode.new NumberOperand "3"))
    (by decide) (by decide) (by decide) (by decide) (by decide), by decide⟩

/-! ## What a failed build reports and leaves behind: claims C11, C12, C18, C20 -/

theorem BuildExpressionTree_of_failureCause (self : ExpressionTree) (text : String)
    (e : ParseError) (h : failureCause text = some e) :
    (BuildExpressionTree self text).ret = false ∧ (BuildExpressionTree self text).tree = self := by
  unfold failureCause at h
  unfold BuildExpressionTree
  split at h
  · exact ⟨rfl, rfl⟩
  · exact ⟨rfl, rfl⟩
  · exact absurd h (by simp)
  · exact ⟨rfl, rfl⟩

/-- C11 (as stated, refuted): building `3 +` ends by the error
`InsufficientOperands` and building `3 4 ?` by the error `InvalidToken`,
yet the two calls give their caller the same result in every respect: the
same return value, the same tree and the same printed text. -/
theorem build_failures_indistinguishable :
    failureCause "3 +" = some ParseError.InsufficientOperands ∧
    failureCause "3 4 ?" = some ParseError.InvalidToken ∧
    failureCause "3 4" = some ParseError.MalformedExpression ∧
    BuildExpressionTree ExpressionTree.empty "3 +" =
      BuildExpressionTree ExpressionTree.empty "3 4 ?" ∧
    (BuildExpressionTree ExpressionTree.empty "3 +").ret =
      (BuildExpressionTree ExpressionTree.empty "3 4").ret := by
  decide

/-- C11 (amended): a failing `BuildExpressionTree` returns the one value
`false` to its caller, whichever of the three errors occurred, and leaves
the tree as it was; building `3 +`, `3 4 ?` and `3 4` ends by the three
different errors and returns `false` each time. -/
theorem build_failure_returns_false (self : ExpressionTree) (text : String) (e : ParseError)
    (h : failureCause text = some e) :
    (BuildExpressionTree self text).ret = false ∧
    (BuildExpressionTree self text).tree = self ∧
    failureCause "3 +" = some ParseError.InsufficientOperands ∧
    failureCause "3 4 ?" = some ParseError.InvalidToken ∧
    failureCause "3 4" = some ParseError.MalformedExpression ∧
    (BuildExpressionTree self "3 +").ret = false ∧
    (BuildExpressionTree self "3 4 ?").ret = false ∧
    (BuildExpressionTree self "3 4").ret = false :=
  ⟨(BuildExpressionTree_of_failureCause self text e h).1,
    (BuildExpressionTree_of_failureCause self text e h).2, by decide, by decide, by decide,
    rfl, rfl, rfl⟩

/-- Witness of C11 (amended): the input `3 4 ?` given to an empty tree. -/
theorem build_failure_returns_false_witness :
    failureCause "3 4 ?" = some ParseError.InvalidToken ∧
    (BuildExpressionTree ExpressionTree.empty "3 4 ?").ret = false ∧
    (BuildExpressionTree ExpressionTree.empty "3 4 ?").tree = ExpressionTree.empty :=
  have h := build_failure_returns_false ExpressionTree.empty "3 4 ?" ParseError.InvalidToken
    (by decide)
  ⟨by decide, h.1, h.2.1⟩

theorem buildLoopHeap_fst :
    ∀ (toks : List String) (branch made : List TreeNode),
      (buildLoopHeap toks branch made).1 = buildLoop toks branch := by
  intro toks
  induction toks with
  | nil => intro branch made; rfl
  | cons token rest ih =>
    intro branch made
    simp only [buildLoopHeap, buildLoop]
    split
    · exact ih _ _
    · split
      · exact ih _ _
      · split
        · split
          · exact ih _ _
          · rfl
        · rfl

theorem clearStack_eq (branch made : List TreeNode) : clearStack branch made = made := by
  induction branch with
  | nil => rfl
  | cons _ below ih => simpa [clearStack] using ih

/-- The heap model returns what `BuildExpressionTree` returns. -/
theorem BuildExpressionTreeHeap_fst (self : ExpressionTree) (text : String) :
    (BuildExpressionTreeHeap self text).1 = BuildExpressionTree self text := by
  have h := buildLoopHeap_fst (tokens text) [] []
  unfold BuildExpressionTreeHeap BuildExpressionTree
  rw [← h]
  rcases buildLoopHeap (tokens text) [] [] with ⟨e, branch, made⟩
  cases e with
  | tooFewOperands => rfl
  | badToken => rfl
  | finished final =>
    match final with
    | [] => rfl
    | [_] => rfl
    | _ :: _ :: _ => rfl

/-- C12 (the code at the failing input): the failed build of `3 +` returns
with the leaf for `3` still allocated, and the failed builds of `3 4 ?` and
of `3 4` return with both leaves still allocated: the loops of lines 75, 88
and 95 pop the pointers and delete nothing. -/
theorem failed_build_leaves_nodes_allocated :
    BuildExpressionTreeHeap ExpressionTree.empty "3 +" =
      (⟨false, ExpressionTree.empty, "Error"⟩, [TreeNode.new NumberOperand "3"]) ∧
    BuildExpressionTreeHeap ExpressionTree.empty "3 4 ?" =
      (⟨false, ExpressionTree.empty, "Error"⟩,
        [TreeNode.new NumberOperand "4", TreeNode.new NumberOperand "3"]) ∧
    BuildExpressionTreeHeap ExpressionTree.empty "3 4" =
      (⟨false, ExpressionTree.empty, ""⟩,
        [TreeNode.new NumberOperand "4", TreeNode.new NumberOperand "3"]) ∧
    (∀ branch made : List TreeNode, clearStack branch made = made) :=
  ⟨by decide, by decide, by decide, clearStack_eq⟩

/-- C18 (the code at the failing input): when the stack does not hold
exactly one item after the last token, as for `3 4` and for the empty
input, `BuildExpressionTree` returns false and has printed nothing; on the
two other failure paths (`3 +`, `3 4 ?`) it has printed `Error`. -/
theorem malformed_build_prints_nothing (self : ExpressionTree) :
    BuildExpressionTree self "3 4" = ⟨false, self, ""⟩ ∧
    BuildExpressionTree self "" = ⟨false, self, ""⟩ ∧
    failureCause "3 4" = some ParseError.MalformedExpression ∧
    failureCause "" = some ParseError.MalformedExpression ∧
    BuildExpressionTree self "3 +" = ⟨false, self, "Error"⟩ ∧
    BuildExpressionTree self "3 4 ?" = ⟨false, self, "Error"⟩ :=
  ⟨rfl, rfl, by decide, by decide, rfl, rfl⟩

/-- C20: when `BuildExpressionTree` returns false the root after the call is
the root before the call: a freshly constructed tree stays empty, a tree
built before is kept, and a root that differs after the call means the call
returned true. -/
theorem failed_build_keeps_root (self : ExpressionTree) (text : String)
    (h : (BuildExpressionTree self text).ret = false) :
    (BuildExpressionTree self text).tree._root = self._root ∧
    (self = ExpressionTree.empty → (BuildExpressionTree self text).tree._root = nil) ∧
    (∀ other : ExpressionTree, ∀ input : String,
      (BuildExpressionTree other input).tree._root ≠ other._root →
        (BuildExpressionTree other input).ret = true) := by
  have key : ∀ (other : ExpressionTree) (input : String),
      (BuildExpressionTree other input).ret = false →
        (BuildExpressionTree other input).tree = other := by
    intro other input hret
    unfold BuildExpressionTree at hret ⊢
    split
    · rfl
    · rfl
    · rename_i root heq
      simp [heq] at hret
    · rfl
  refine ⟨by rw [key self text h], ?_, ?_⟩
  · intro hs
    rw [key self text h, hs]
    rfl
  · intro other input hne
    cases hret : (BuildExpressionTree other input).ret with
    | true => rfl
    | false => exact absurd (by rw [key other input hret]) hne

/-- Witness of C20: a tree built from `3 4 +` is kept by the failing build of `3 +`. -/
theorem failed_build_keeps_root_witness :
    (BuildExpressionTree (BuildExpressionTree ExpressionTree.empty "3 4 +").tree "3 +").ret =
      false ∧
    (BuildExpressionTree (BuildExpressionTree ExpressionTree.empty "3 4 +").tree
      "3 +").tree._root =
      node Operator "+" (TreeNode.new NumberOperand "3") (TreeNode.new NumberOperand "4") :=
  ⟨by decide,
    (failed_build_keeps_root (BuildExpressionTree ExpressionTree.empty "3 4 +").tree "3 +"
      (by decide)).1⟩

/-! ## The classifiers: claims C14, C15 -/

/-- C14: for every token at most one of `IsNumber`, `IsVariable` and
`IsOperator` returns true. -/
theorem classifiers_exclusive (token : String) :
    ¬ (IsNumber token = true ∧ IsVariable token = true) ∧
    ¬ (IsNumber token = true ∧ IsOperator token = true) ∧
    ¬ (IsVariable token = true ∧ IsOperator token = true) := by
  refine ⟨?_, ?_, ?_⟩
  · rintro ⟨h1, h2⟩
    rw [IsNumber_false_of_IsVariable h2] at h1
    exact absurd h1 (by decide)
  · rintro ⟨h1, h2⟩
    rw [IsNumber_false_of_IsOperator h2] at h1
    exact absurd h1 (by decide)
  · rintro ⟨h1, h2⟩
    rw [IsVariable_false_of_IsOperator h2] at h1
    exact absurd h1 (by decide)

theorem isdigit_iff_mem (c : Char) : isdigit c = true ↔ c ∈ asciiDigits := by
  constructor
  · intro h
    simp only [isdigit, Bool.and_eq_true, decide_eq_true_eq] at h
    have hc : c = Char.ofNat c.toNat := (Char.ofNat_toNat c).symm
    obtain ⟨h1, h2⟩ := h
    generalize c.toNat = n at hc h1 h2
    subst hc
    interval_cases n <;> decide
  · intro h
    have hall : ∀ d ∈ asciiDigits, isdigit d = true := by decide
    exact hall c h

theorem isalpha_iff_mem (c : Char) : isalpha c = true ↔ c ∈ asciiLetters := by
  constructor
  · intro h
    simp only [isalpha, Bool.or_eq_true, Bool.and_eq_true, decide_eq_true_eq] at h
    have hc : c = Char.ofNat c.toNat := (Char.ofNat_toNat c).symm
    generalize c.toNat = n at hc h
    subst hc
    rcases h with ⟨h1, h2⟩ | ⟨h1, h2⟩ <;> interval_cases n <;> decide
  · intro h
    have hall : ∀ d ∈ asciiLetters, isalpha d = true := by decide
    exact hall c h

theorem isalnum_iff_mem (c : Char) :
    isalnum c = true ↔ c ∈ asciiLetters ∨ c ∈ asciiDigits := by
  simp only [isalnum, Bool.or_eq_true, isalpha_iff_mem, isdigit_iff_mem]

/-- C15: `IsNumber` is true exactly for the non-empty strings of ASCII
digits, `IsVariable` exactly for the strings that start with an ASCII letter
and go on with ASCII letters and digits only, and `IsOperator` exactly for
`+`, `-` and `*`. -/
theorem classifiers_accept_grammar (token : String) :
    (IsNumber token = true ↔ token.data ≠ [] ∧ ∀ c ∈ token.data, c ∈ asciiDigits) ∧
    (IsVariable token = true ↔
      ∃ c cs, token.data = c :: cs ∧ c ∈ asciiLetters ∧
        ∀ d ∈ cs, d ∈ asciiLetters ∨ d ∈ asciiDigits) ∧
    (IsOperator token = true ↔ token = "+" ∨ token = "-" ∨ token = "*") := by
  refine ⟨?_, ?_, IsOperator_iff token⟩
  · rw [IsNumber_iff]
    simp only [isdigit_iff_mem]
  · rw [IsVariable_iff]
    constructor
    · rintro ⟨c, cs, hd, hc, hall⟩
      exact ⟨c, cs, hd, (isalpha_iff_mem c).1 hc,
        fun d hd => (isalnum_iff_mem d).1 (hall d (List.mem_cons_of_mem _ hd))⟩
    · rintro ⟨c, cs, hd, hc, hall⟩
      refine ⟨c, cs, hd, (isalpha_iff_mem c).2 hc, ?_⟩
      intro d hd
      rcases List.mem_cons.1 hd with e | e
      · rw [e]; exact (isalnum_iff_mem c).2 (Or.inl hc)
      · exact (isalnum_iff_mem d).2 (hall d e)

/-! ## Numbers beyond `int` and self-subtraction: claims C13, C16 -/

theorem operandLeaf_of_IsNumber {token : String} (h : IsNumber token = true) :
    operandLeaf token = TreeNode.new NumberOperand token := by
  simp [operandLeaf, h]

/-- Lines 130-150 on two number leaves in `int` range whose result is in `int` range. -/
theorem SimplifyTree_number_leaves (op a b : String) (hop : IsOperator op = true)
    (ha : IsNumber a = true) (hb : IsNumber b = true)
    (hfa : (decimalValue a.data : Int) ≤ INT_MAX) (hfb : (decimalValue b.data : Int) ≤ INT_MAX)
    (hlo : INT_MIN ≤ applyOperator op (decimalValue a.data) (decimalValue b.data))
    (hhi : applyOperator op (decimalValue a.data) (decimalValue b.data) ≤ INT_MAX) :
    SimplifyTree (node Operator op (TreeNode.new NumberOperand a) (TreeNode.new NumberOperand b)) =
      .returned (TreeNode.new NumberOperand
        (to_string (applyOperator op (decimalValue a.data) (decimalValue b.data)))) := by
  rw [SimplifyTree_of_children _ _ _ _ _ _ (simplifiedChild_number a) (simplifiedChild_number b),
    rewriteNode_numeric op _ _ a b ha hb hfa hfb, foldConstants_of_IsOperator hop,
    wrapInt_of_fits hlo hhi]

/-- C13 (as stated, refuted): `2147483648` is a number token and
`2147483648 0 +` is accepted, yet `SimplifyTree` on the tree built from it
is left by the exception of `std::stoi`; and on `2147483647 1 +`, whose
operands fit in an `int` but whose sum does not, the leaf returned carries
`-2147483648`, not the text `2147483648` of the exact sum. -/
theorem exact_arithmetic_refuted :
    IsNumber "2147483648" = true ∧
    (BuildExpressionTree ExpressionTree.empty "2147483648 0 +").ret = true ∧
    SimplifyTree (BuildExpressionTree ExpressionTree.empty "2147483648 0 +").tree._root =
      .threw ∧
    (BuildExpressionTree ExpressionTree.empty "2147483647 1 +").ret = true ∧
    SimplifyTree (BuildExpressionTree ExpressionTree.empty "2147483647 1 +").tree._root =
      .returned (TreeNode.new NumberOperand "-2147483648") ∧
    SimplifyTree (BuildExpressionTree ExpressionTree.empty "2147483647 1 +").tree._root ≠
      .returned (TreeNode.new NumberOperand "2147483648") := by
  decide

/-- C13 (amended): for number tokens `a`, `b` whose values fit in an `int`
and an operator `op` such that `a op b` fits in an `int`, the input `a b op`
is accepted and `SimplifyTree` on the tree built from it raises no error
and returns a number leaf whose payload is the decimal text of the exact
integer `a op b`. -/
theorem SimplifyTree_built_constants (self : ExpressionTree) (op a b : String)
    (hop : IsOperator op = true) (ha : IsNumber a = true) (hb : IsNumber b = true)
    (hfa : (decimalValue a.data : Int) ≤ INT_MAX) (hfb : (decimalValue b.data : Int) ≤ INT_MAX)
    (hlo : INT_MIN ≤ applyOperator op (decimalValue a.data) (decimalValue b.data))
    (hhi : applyOperator op (decimalValue a.data) (decimalValue b.data) ≤ INT_MAX) :
    (BuildExpressionTree self (a ++ " " ++ b ++ " " ++ op)).ret = true ∧
    SimplifyTree (BuildExpressionTree self (a ++ " " ++ b ++ " " ++ op)).tree._root =
      .returned (TreeNode.new NumberOperand
        (to_string (applyOperator op (decimalValue a.data) (decimalValue b.data)))) ∧
    (0 ≤ applyOperator op (decimalValue a.data) (decimalValue b.data) →
      (decimalValue
        (to_string (applyOperator op (decimalValue a.data) (decimalValue b.data))).data : Int) =
        applyOperator op (decimalValue a.data) (decimalValue b.data)) ∧
    (applyOperator op (decimalValue a.data) (decimalValue b.data) < 0 →
      ∃ digits : String,
        to_string (applyOperator op (decimalValue a.data) (decimalValue b.data)) =
          "-" ++ digits ∧
        (decimalValue digits.data : Int) =
          -applyOperator op (decimalValue a.data) (decimalValue b.data)) := by
  have hoa : isOperandToken a = true := by simp [isOperandToken, ha]
  have hob : isOperandToken b = true := by simp [isOperandToken, hb]
  refine ⟨?_, ?_, fun h => ((to_string_spec _).1 h).2, ?_⟩
  · rw [BuildExpressionTree_three self a b op hoa hob hop]
  · rw [BuildExpressionTree_three self a b op hoa hob hop]
    simp only
    rw [operandLeaf_of_IsNumber ha, operandLeaf_of_IsNumber hb]
    exact SimplifyTree_number_leaves op a b hop ha hb hfa hfb hlo hhi
  · intro h
    obtain ⟨digits, e1, -, e2⟩ := (to_string_spec _).2 h
    exact ⟨digits, e1, e2⟩

/-- Witness of C13 (amended): `2147483647 1 -` gives the number leaf `2147483646`. -/
theorem SimplifyTree_built_constants_witness :
    (BuildExpressionTree ExpressionTree.empty ("2147483647" ++ " " ++ "1" ++ " " ++ "-")).ret =
      true ∧
    SimplifyTree
        (BuildExpressionTree ExpressionTree.empty
          ("2147483647" ++ " " ++ "1" ++ " " ++ "-")).tree._root =
      .returned (TreeNode.new NumberOperand
        (to_string (applyOperator "-" (decimalValue "2147483647".data)
          (decimalValue "1".data)))) ∧
    to_string (applyOperator "-" (decimalValue "2147483647".data) (decimalValue "1".data)) =
      "2147483646" :=
  have h := SimplifyTree_built_constants ExpressionTree.empty "-" "2147483647" "1" (by decide)
    (by decide) (by decide) (by decide) (by decide) (by decide) (by decide)
  ⟨h.1, h.2.1, by decide⟩

/-- Where `exp - exp` does reduce to `0`: when `exp`, as a child, becomes a
leaf that is a variable operand whose text is no digit run, or a leaf whose
text is a digit run in `int` range, `SimplifyTree` on `exp - exp` returns a
leaf with the payload `0`. -/
theorem SimplifyTree_selfSubtraction (exp : TreeNode) (kind : NodeType) (d : String)
    (h : simplifiedChild exp = .returned (TreeNode.new kind d))
    (hd : (IsNumber d = false ∧ kind = VariableOperand) ∨
      (IsNumber d = true ∧ (decimalValue d.data : Int) ≤ INT_MAX)) :
    ∃ leafKind, SimplifyTree (selfSubtraction exp) = .returned (TreeNode.new leafKind "0") := by
  unfold selfSubtraction
  rw [SimplifyTree_of_children _ _ _ _ _ _ h h]
  rcases hd with ⟨hn, hk⟩ | ⟨hn, hfit⟩
  · refine ⟨VariableOperand, ?_⟩
    rw [rewriteNode_symbolic "-" kind kind d d (Or.inl hk) (by simp [hn])]
    simp [rewriteSymbolic]
  · refine ⟨NumberOperand, ?_⟩
    rw [rewriteNode_numeric "-" kind kind d d hn hn hfit hfit]
    have hz : foldConstants "-" (decimalValue d.data) (decimalValue d.data) = 0 := by
      rw [foldConstants_of_IsOperator (by decide)]
      simp [applyOperator, wrapInt]
    rw [hz]
    rfl

/-- C16 (the code at the failing input): for `exp` the well-formed tree of
`3 - 5`, whose constants and value `-2` fit in an `int`, the tree
`exp - exp` is the one built from `3 5 - 3 5 - -`, and `SimplifyTree` has no
defined result on it: both operands fold to the number leaf `-2`, which
line 130 does not take for a number. For a single operand `exp - exp` does
give `0`. -/
theorem self_subtraction_undefined_for_negative :
    WellFormed (node Operator "-" (TreeNode.new NumberOperand "3")
      (TreeNode.new NumberOperand "5")) = true ∧
    allFitInt (node Operator "-" (TreeNode.new NumberOperand "3")
      (TreeNode.new NumberOperand "5")) = true ∧
    (BuildExpressionTree ExpressionTree.empty "3 5 - 3 5 - -").ret = true ∧
    (BuildExpressionTree ExpressionTree.empty "3 5 - 3 5 - -").tree._root =
      selfSubtraction (node Operator "-" (TreeNode.new NumberOperand "3")
        (TreeNode.new NumberOperand "5")) ∧
    simplifiedChild (node Operator "-" (TreeNode.new NumberOperand "3")
      (TreeNode.new NumberOperand "5")) = .returned (TreeNode.new NumberOperand "-2") ∧
    SimplifyTree (selfSubtraction (node Operator "-" (TreeNode.new NumberOperand "3")
      (TreeNode.new NumberOperand "5"))) = .undefined ∧
    SimplifyTree (selfSubtraction (TreeNode.new NumberOperand "5")) =
      .returned (TreeNode.new NumberOperand "0") ∧
    SimplifyTree (selfSubtraction (TreeNode.new VariableOperand "x")) =
      .returned (TreeNode.new VariableOperand "0") := by
  decide

/-! ## Parentheses of the rendering: claim C17 -/

theorem count_paren_of_isalnum (cs : List Char) (h : ∀ c ∈ cs, isalnum c = true) :
    cs.count '(' = 0 ∧ cs.count ')' = 0 := by
  constructor
  · rw [List.count_eq_zero]
    intro hmem
    exact absurd (h _ hmem) (by decide)
  · rw [List.count_eq_zero]
    intro hmem
    exact absurd (h _ hmem) (by decide)

theorem count_paren_of_IsNumber {token : String} (h : IsNumber token = true) :
    token.data.count '(' = 0 ∧ token.data.count ')' = 0 :=
  count_paren_of_isalnum _ (fun c hc => isalnum_of_isdigit (((IsNumber_iff token).1 h).2 c hc))

theorem count_paren_of_IsVariable {token : String} (h : IsVariable token = true) :
    token.data.count '(' = 0 ∧ token.data.count ')' = 0 := by
  obtain ⟨c, cs, hd, -, hall⟩ := (IsVariable_iff token).1 h
  rw [hd]
  exact count_paren_of_isalnum _ hall

theorem count_paren_of_IsOperator {token : String} (h : IsOperator token = true) :
    token.data.count '(' = 0 ∧ token.data.count ')' = 0 := by
  rcases (IsOperator_iff token).1 h with h | h | h <;> subst h <;> decide

/-- With the flag true the rendering of a well-formed tree has one `(` and
one `)` for each operator node. -/
theorem ToString_true_paren_count :
    ∀ t : TreeNode, WellFormed t = true →
      ∃ text, ToString t true = some text ∧
        text.data.count '(' = t.nodes.countP TreeNode.isOperator ∧
        text.data.count ')' = t.nodes.countP TreeNode.isOperator := by
  intro t
  induction t with
  | nil => intro h; simp [WellFormed] at h
  | node type data left right ihl ihr =>
    intro h
    cases type with
    | NumberOperand =>
      obtain ⟨hd, hl, hr⟩ := WellFormed_number.1 h
      subst hl hr
      obtain ⟨c1, c2⟩ := count_paren_of_IsNumber hd
      exact ⟨data, by simp [ToString], by simp [TreeNode.nodes, TreeNode.isOperator, c1],
        by simp [TreeNode.nodes, TreeNode.isOperator, c2]⟩
    | VariableOperand =>
      obtain ⟨hd, hl, hr⟩ := WellFormed_variable.1 h
      subst hl hr
      obtain ⟨c1, c2⟩ := count_paren_of_IsVariable hd
      exact ⟨data, by simp [ToString], by simp [TreeNode.nodes, TreeNode.isOperator, c1],
        by simp [TreeNode.nodes, TreeNode.isOperator, c2]⟩
    | Operator =>
      obtain ⟨hd, hl, hr⟩ := WellFormed_operator.1 h
      obtain ⟨sl, el, l1, l2⟩ := ihl hl
      obtain ⟨sr, er, r1, r2⟩ := ihr hr
      obtain ⟨c1, c2⟩ := count_paren_of_IsOperator hd
      refine ⟨"(" ++ sl ++ data ++ sr ++ ")", by simp [ToString, el, er], ?_, ?_⟩
      · have e : ("(" ++ sl ++ data ++ sr ++ ")").data =
            '(' :: (sl.data ++ (data.data ++ (sr.data ++ [')']))) := by
          simp [String.data_append]
        rw [e]
        simp only [TreeNode.nodes, List.countP_cons, List.countP_append, TreeNode.isOperator,
          List.count_cons, List.count_append, List.count_nil, l1, r1, c1]
        simp
      · have e : ("(" ++ sl ++ data ++ sr ++ ")").data =
            '(' :: (sl.data ++ (data.data ++ (sr.data ++ [')']))) := by
          simp [String.data_append]
        rw [e]
        simp only [TreeNode.nodes, List.countP_cons, List.countP_append, TreeNode.isOperator,
          List.count_cons, List.count_append, List.count_nil, l2, r2, c2]
        simp
        omega

/-- C17: for a tree produced by a successful `BuildExpressionTree` the text
`ToString(root, false)` has exactly as many `(`, and exactly as many `)`,
as the tree has operator nodes other than the root. -/
theorem ToString_paren_count (self : ExpressionTree) (s : String)
    (h : (BuildExpressionTree self s).ret = true) :
    ∃ text, ToString (BuildExpressionTree self s).tree._root false = some text ∧
      text.data.count '(' = innerOperatorCount (BuildExpressionTree self s).tree._root ∧
      text.data.count ')' = innerOperatorCount (BuildExpressionTree self s).tree._root := by
  have hfin := finished_of_BuildExpressionTree self s h
  have hwf := wellFormed_of_finished _ _ _ (by simp) hfin _ (List.mem_singleton_self _)
  generalize (BuildExpressionTree self s).tree._root = root at hwf
  cases root with
  | nil => simp [WellFormed] at hwf
  | node type data left right =>
    cases type with
    | NumberOperand =>
      obtain ⟨hd, hl, hr⟩ := WellFormed_number.1 hwf
      subst hl hr
      obtain ⟨c1, c2⟩ := count_paren_of_IsNumber hd
      exact ⟨data, by simp [ToString], by simp [innerOperatorCount, TreeNode.nodes, c1],
        by simp [innerOperatorCount, TreeNode.nodes, c2]⟩
    | VariableOperand =>
      obtain ⟨hd, hl, hr⟩ := WellFormed_variable.1 hwf
      subst hl hr
      obtain ⟨c1, c2⟩ := count_paren_of_IsVariable hd
      exact ⟨data, by simp [ToString], by simp [innerOperatorCount, TreeNode.nodes, c1],
        by simp [innerOperatorCount, TreeNode.nodes, c2]⟩
    | Operator =>
      obtain ⟨hd, hl, hr⟩ := WellFormed_operator.1 hwf
      obtain ⟨sl, el, l1, l2⟩ := ToString_true_paren_count left hl
      obtain ⟨sr, er, r1, r2⟩ := ToString_true_paren_count right hr
      obtain ⟨c1, c2⟩ := count_paren_of_IsOperator hd
      refine ⟨sl ++ data ++ sr, by simp [ToString, el, er], ?_, ?_⟩
      · simp [innerOperatorCount, TreeNode.nodes, String.data_append, List.countP_append, l1, r1,
          c1]
      · simp [innerOperatorCount, TreeNode.nodes, String.data_append, List.countP_append, l2, r2,
          c2]

/-- Witness of C17: the tree built from `5 2 3 * + x -`, rendered `(5+(2*3))-x`. -/
theorem ToString_paren_count_witness :
    ∃ text, ToString (BuildExpressionTree ExpressionTree.empty "5 2 3 * + x -").tree._root
        false = some text ∧
      text.data.count '(' =
        innerOperatorCount (BuildExpressionTree ExpressionTree.empty "5 2 3 * + x -").tree._root ∧
      text.data.count ')' =
        innerOperatorCount (BuildExpressionTree ExpressionTree.empty "5 2 3 * + x -").tree._root :=
  ToString_paren_count ExpressionTree.empty "5 2 3 * + x -" (by decide)

/-! ## Trees of variables collapse to their rendering: claim C19 -/

theorem simplifiedChild_operator {op : String} (hop : IsOperator op = true)
    (left right : TreeNode) :
    simplifiedChild (node Operator op left right) = SimplifyTree (node Operator op left right) := by
  have hne : (Operator == NumberOperand) = false := by decide
  simp [simplifiedChild, needsSimplify, TreeNode.IsNumber, hne,
    IsVariable_false_of_IsOperator hop]

theorem IsNumber_paren_false (text : String) : IsNumber ("(" ++ text) = false := by
  cases h : IsNumber ("(" ++ text) with
  | false => rfl
  | true =>
    have := ((IsNumber_iff _).1 h).2 '(' (by simp [String.data_append])
    exact absurd this (by decide)

theorem ne_of_IsNumber_false {text : String} (h : IsNumber text = false) :
    text ≠ "0" ∧ text ≠ "1" := by
  constructor
  · intro e
    rw [e] at h
    exact absurd h (by decide)
  · intro e
    rw [e] at h
    exact absurd h (by decide)

/-- When neither text is `0` or `1` and the texts differ, no identity rule
fires: the symbolic rules give the parenthesised infix text. -/
theorem rewriteSymbolic_plain {op : String} (hop : IsOperator op = true) (l r : String)
    (hl : l ≠ "0" ∧ l ≠ "1") (hr : r ≠ "0" ∧ r ≠ "1") (hne : op = "-" → l ≠ r) :
    rewriteSymbolic op l r = "(" ++ l ++ op ++ r ++ ")" := by
  rcases (IsOperator_iff op).1 hop with h | h | h <;> subst h
  · simp [rewriteSymbolic, hl.1, hr.1]
  · have := hne rfl
    simp [rewriteSymbolic, hl.1, hr.1, this]
  · simp [rewriteSymbolic, hl.1, hr.1, hl.2, hr.2]

/-- A well-formed tree of variables without self-subtraction is, as a
child, a variable-operand leaf carrying its rendering with the flag true;
that text is no digit run. -/
theorem simplifiedChild_variables :
    ∀ t : TreeNode, WellFormed t = true → variablesOnly t = true →
      noSelfSubtraction t = true →
      ∃ text, ToString t true = some text ∧
        simplifiedChild t = .returned (TreeNode.new VariableOperand text) ∧
        IsNumber text = false := by
  intro t
  induction t with
  | nil => intro h; simp [WellFormed] at h
  | node type data left right ihl ihr =>
    intro hwf hvar hns
    cases type with
    | NumberOperand => simp [variablesOnly] at hvar
    | VariableOperand =>
      obtain ⟨hd, hl, hr⟩ := WellFormed_variable.1 hwf
      subst hl hr
      exact ⟨data, by simp [ToString], simplifiedChild_variable hd,
        IsNumber_false_of_IsVariable hd⟩
    | Operator =>
      obtain ⟨hop, hwl, hwr⟩ := WellFormed_operator.1 hwf
      simp only [variablesOnly, Bool.and_eq_true] at hvar
      simp only [noSelfSubtraction, Bool.and_eq_true, Bool.not_eq_true', Bool.and_eq_false_imp,
        beq_iff_eq, beq_eq_false_iff_ne, ne_eq] at hns
      obtain ⟨tl, el, sl, nl⟩ := ihl hwl hvar.1 hns.1.2
      obtain ⟨tr, er, sr, nr⟩ := ihr hwr hvar.2 hns.2
      have hdiff : data = "-" → tl ≠ tr := by
        intro hminus heq
        have := hns.1.1 ⟨trivial, hminus⟩
        rw [el, er, heq] at this
        exact this rfl
      refine ⟨"(" ++ tl ++ data ++ tr ++ ")", by simp [ToString, el, er], ?_, ?_⟩
      · rw [simplifiedChild_operator hop, SimplifyTree_of_children _ _ _ _ _ _ sl sr,
          rewriteNode_symbolic data _ _ tl tr (Or.inl rfl) (by simp [nl]),
          rewriteSymbolic_plain hop tl tr (ne_of_IsNumber_false nl) (ne_of_IsNumber_false nr)
            hdiff]
      · have e : "(" ++ tl ++ data ++ tr ++ ")" = "(" ++ (tl ++ data ++ tr ++ ")") := by
          simp [String.append_assoc]
        rw [e]
        exact IsNumber_paren_false _

/-- C19: for a well-formed operator-rooted tree whose leaves are all
variable operands and which has no `-` node whose two operands render to
the same text, `SimplifyTree` returns a variable-operand leaf whose payload
is exactly `ToString(tree, true)`. -/
theorem SimplifyTree_variables_eq_ToString (op : String) (left right : TreeNode)
    (hwf : WellFormed (node Operator op left right) = true)
    (hvar : variablesOnly (node Operator op left right) = true)
    (hns : noSelfSubtraction (node Operator op left right) = true) :
    ∃ text, ToString (node Operator op left right) true = some text ∧
      SimplifyTree (node Operator op left right) =
        .returned (TreeNode.new VariableOperand text) := by
  obtain ⟨text, e1, e2, -⟩ := simplifiedChild_variables _ hwf hvar hns
  rw [simplifiedChild_operator (WellFormed_operator.1 hwf).1] at e2
  exact ⟨text, e1, e2⟩

/-- Witness of C19: the tree of `(x+y)*(x-z)`, which collapses to the leaf `((x+y)*(x-z))`. -/
theorem SimplifyTree_variables_eq_ToString_witness :
    (∃ text,
      ToString (node Operator "*"
          (node Operator "+" (TreeNode.new VariableOperand "x") (TreeNode.new VariableOperand "y"))
          (node Operator "-" (TreeNode.new VariableOperand "x") (TreeNode.new VariableOperand "z")))
        true = some text ∧
      SimplifyTree (node Operator "*"
          (node Operator "+" (TreeNode.new VariableOperand "x") (TreeNode.new VariableOperand "y"))
          (node Operator "-" (TreeNode.new VariableOperand "x")
            (TreeNode.new VariableOperand "z"))) =
        .returned (TreeNode.new VariableOperand text)) ∧
    ToString (node Operator "*"
        (node Operator "+" (TreeNode.new VariableOperand "x") (TreeNode.new VariableOperand "y"))
        (node Operator "-" (TreeNode.new VariableOperand "x") (TreeNode.new VariableOperand "z")))
      true = some "((x+y)*(x-z))" :=
  ⟨SimplifyTree_variables_eq_ToString "*"
    (node Operator "+" (TreeNode.new VariableOperand "x") (TreeNode.new VariableOperand "y"))
    (node Operator "-" (TreeNode.new VariableOperand "x") (TreeNode.new VariableOperand "z"))
    (by decide) (by decide) (by decide), by decide⟩

end ExpressionSimplifier
